import Mathlib

/-!
Verification of the DelphOs signal-aggregation and prediction engine.

The Python source is embedded shallowly:
- pandas Series over a numeric dtype become lists of optional rationals
  (a missing cell, NaN in pandas, is Option.none);
- DataFrames become association lists from column names to such series,
  together with an explicit row count;
- functions of the external libraries (the ta indicator package, the
  pandas rolling standard deviation, numpy) are parameters of the
  embedding: each is an oracle that may either return a series or raise;
- Python exceptions are modelled with Except, and a try/except block is a
  match on the Except value;
- float arithmetic is modelled by exact rational arithmetic.  Division is
  only taken with a denominator that is provably nonzero, except where the
  source itself can divide by zero: there pandas produces inf or NaN
  without raising, and the embedding uses a guarded division that yields a
  missing cell, which is noted at each such definition.
-/

namespace DelphOs

/-- A cell of a pandas Series: none models NaN. -/
abbrev Cell := Option ℚ

/-- A pandas Series of floats. -/
abbrev Series := List Cell

/-- Positional access into a series; out of range or NaN both give none. -/
def seriesGet (l : Series) (i : ℕ) : Cell := (l[i]?).join

/-- An all-NaN series of the given length, as pd.Series(np.nan, ...). -/
def nanSeries (n : ℕ) : Series := List.replicate n none

/-- A constant series, as broadcasting a scalar over the index. -/
def constSeries (n : ℕ) (q : ℚ) : Series := List.replicate n (some q)

/-- Series.diff(k): cell i is x i - x (i-k), NaN for i < k, NaN propagating. -/
def sdiff (k : ℕ) (l : Series) : Series :=
  (List.range l.length).map (fun i =>
    if i < k then none
    else match seriesGet l i, seriesGet l (i - k) with
      | some a, some b => some (a - b)
      | _, _ => none)

/-- The window of the last w cells ending at index i (inclusive). -/
def windowCells (l : Series) (w i : ℕ) : List Cell :=
  (l.take (i + 1)).drop (i + 1 - w)

/-- Series.rolling(window=w).mean(): NaN until the window is full and
whenever the window holds a NaN, as with the pandas default min_periods. -/
def rollingMean (w : ℕ) (l : Series) : Series :=
  (List.range l.length).map (fun i =>
    if i + 1 < w then none
    else
      let win := windowCells l w i
      if win.all Option.isSome then
        some ((win.map (fun o => o.getD 0)).sum / (w : ℚ))
      else none)

/-- Pointwise unary operation, NaN propagating. -/
def cellMap (f : ℚ → ℚ) (l : Series) : Series := l.map (Option.map f)

/-- Pointwise binary operation of two aligned series, NaN propagating. -/
def cellZip (f : ℚ → ℚ → ℚ) (a b : Series) : Series :=
  a.zipWith (fun x y => match x, y with
    | some x, some y => some (f x y)
    | _, _ => none) b

/-- Pointwise division of aligned series.  A zero denominator yields a
missing cell (pandas would produce inf or NaN without raising; no claim
depends on the value of such a cell, only on definedness after filling). -/
def cellDivZ (a b : Series) : Series :=
  a.zipWith (fun x y => match x, y with
    | some x, some y => if y = 0 then none else some (x / y)
    | _, _ => none) b

/-- Comparison of a cell with a scalar, false on NaN as in pandas. -/
def cGt (o : Cell) (q : ℚ) : Bool := match o with | some x => q < x | none => false

/-- Comparison of a cell with a scalar, false on NaN as in pandas. -/
def cLt (o : Cell) (q : ℚ) : Bool := match o with | some x => x < q | none => false

/-- Comparison of two cells, false if either is NaN. -/
def cGtC (a b : Cell) : Bool :=
  match a, b with | some x, some y => y < x | _, _ => false

/-- fillna(method=bfill): each NaN takes the next defined value below it;
trailing NaNs stay NaN. -/
def bfill : Series → Series
  | [] => []
  | o :: rest =>
    let r := bfill rest
    match o with
    | some x => some x :: r
    | none => (match r with | [] => none | h :: _ => h) :: r

/-- Helper for ffill carrying the last defined value seen so far. -/
def ffillAux (carry : Cell) : Series → Series
  | [] => []
  | o :: rest =>
    match o with
    | some x => some x :: ffillAux (some x) rest
    | none => carry :: ffillAux carry rest

/-- fillna(method=ffill): each NaN takes the last defined value above it. -/
def ffill (l : Series) : Series := ffillAux none l

/-- fillna(c): every NaN becomes the constant c. -/
def fillConst (c : ℚ) (l : Series) : Series := l.map (fun o => some (o.getD c))

/-! ## advanced_indicators.py -/

/-- calculate_ema from advanced_indicators.py: Series.ewm(span=period,
adjust=False).mean().  With adjust=False pandas seeds with the first value
and then applies y t = (1-a) * y (t-1) + a * x t with a = 2/(span+1); every
output cell is defined.  The try/except of the source is not reachable for
numeric input (ewm does not raise), so the embedding is total. -/
def emaFrom (a : ℚ) (prev : ℚ) : List ℚ → List ℚ
  | [] => []
  | y :: ys =>
    let e := (1 - a) * prev + a * y
    e :: emaFrom a e ys

/-- calculate_ema on a fully defined price series. -/
def calculate_ema (data : List ℚ) (period : ℕ) : List ℚ :=
  let a : ℚ := 2 / ((period : ℚ) + 1)
  match data with
  | [] => []
  | x :: xs => x :: emaFrom a x xs

/-! ### RSI, two implementations -/

/-- Gains series inside calculate_stochastic_rsi (advanced_indicators.py):
delta.where(delta greater than 0, 0).  pandas where replaces every cell
whose condition is false, including the leading NaN of diff (NaN compared
with 0 is false), by 0 - so every cell of the result is defined. -/
def advGain (data : List ℚ) : Series :=
  (sdiff 1 (data.map some)).map (fun o =>
    some (match o with | none => 0 | some d => if 0 < d then d else 0))

/-- Losses series inside calculate_stochastic_rsi: the negation of
delta.where(delta less than 0, 0), every cell defined as for advGain. -/
def advLoss (data : List ℚ) : Series :=
  (sdiff 1 (data.map some)).map (fun o =>
    some (match o with | none => 0 | some d => if d < 0 then -d else 0))

/-- avg_gain = gain.rolling(window=period).mean() in calculate_stochastic_rsi. -/
def advAvgGain (data : List ℚ) (period : ℕ) : Series :=
  rollingMean period (advGain data)

/-- avg_loss = loss.rolling(window=period).mean() in calculate_stochastic_rsi. -/
def advAvgLoss (data : List ℚ) (period : ℕ) : Series :=
  rollingMean period (advLoss data)

/-- The RSI series computed inside calculate_stochastic_rsi
(advanced_indicators.py lines 40-49): rs = np.where(avg_loss == 0, 0,
avg_gain / avg_loss); rsi = 100 - 100 / (1 + rs).  Note that where
avg_loss is exactly 0 the source substitutes rs = 0, so rsi = 0 there. -/
def advRsi (data : List ℚ) (period : ℕ) : Series :=
  (advAvgGain data period).zipWith (fun g l =>
    match g, l with
    | some g, some l => some (100 - 100 / (1 + (if l = 0 then 0 else g / l)))
    | _, _ => none) (advAvgLoss data period)

/-- up series of calculate_rsi (simple_rsi.py): delta with negatives set to
0 by boolean-mask assignment; a NaN cell stays NaN (NaN less than 0 is
false, so the mask does not touch it). -/
def simpleUp (data : List ℚ) : Series :=
  (sdiff 1 (data.map some)).map (Option.map (fun d => if d < 0 then 0 else d))

/-- down series of calculate_rsi: delta with positives set to 0, then abs. -/
def simpleDown (data : List ℚ) : Series :=
  (sdiff 1 (data.map some)).map (Option.map (fun d => if 0 < d then 0 else |d|))

/-- roll_up = up.rolling(window).mean() of calculate_rsi. -/
def simpleRollUp (data : List ℚ) (window : ℕ) : Series :=
  rollingMean window (simpleUp data)

/-- roll_down = down.rolling(window).mean() of calculate_rsi. -/
def simpleRollDown (data : List ℚ) (window : ℕ) : Series :=
  rollingMean window (simpleDown data)

/-- calculate_rsi from simple_rsi.py: the zero cells of roll_down are
replaced by 1e-10, rs = roll_up / roll_down_safe, rsi = 100 - 100/(1+rs).
The try/except of the source only guards input-format conversion and is
not reachable for a numeric series. -/
def simpleRsi (data : List ℚ) (window : ℕ) : Series :=
  (simpleRollUp data window).zipWith (fun u d =>
    match u, d with
    | some u, some d =>
      let dSafe : ℚ := if d = 0 then 1 / 10 ^ 10 else d
      some (100 - 100 / (1 + u / dSafe))
    | _, _ => none) (simpleRollDown data window)

/-! ## Index lemmas for the series combinators -/

theorem rangeMap_getElem? (f : ℕ → α) (n i : ℕ) :
    ((List.range n).map f)[i]? = if i < n then some (f i) else none := by
  rcases Nat.lt_or_ge i n with h | h
  · rw [List.getElem?_map, List.getElem?_range h]
    simp [h]
  · rw [List.getElem?_eq_none (by simpa using h)]
    simp [Nat.not_lt.mpr h]

theorem zipWith_getElem? (f : α → β → γ) (as : List α) (bs : List β) (i : ℕ) :
    (List.zipWith f as bs)[i]? =
      match as[i]?, bs[i]? with
      | some a, some b => some (f a b)
      | _, _ => none := by
  induction as generalizing bs i with
  | nil => simp
  | cons a as ih =>
    cases bs with
    | nil => simp
    | cons b bs =>
      cases i with
      | zero => simp
      | succ j => simpa using ih bs j

theorem mem_windowCells {c : Cell} {l : Series} {w i : ℕ}
    (h : c ∈ windowCells l w i) : c ∈ l :=
  List.take_subset _ _ (List.drop_subset _ _ h)

/-- A defined value of a rolling mean of a series whose defined cells are
all nonnegative is nonnegative. -/
theorem rollingMean_nonneg {l : Series} {w i : ℕ} {x : ℚ}
    (hl : ∀ c ∈ l, ∀ v, c = some v → 0 ≤ v)
    (h : seriesGet (rollingMean w l) i = some x) : 0 ≤ x := by
  unfold seriesGet rollingMean at h
  rw [rangeMap_getElem? _ l.length i] at h
  by_cases hi : i < l.length
  · simp only [hi, if_true, Option.join] at h
    by_cases hw : i + 1 < w
    · simp [hw] at h
    · simp only [hw, if_false] at h
      by_cases hall : (windowCells l w i).all Option.isSome
      · simp only [hall, if_true, Option.join, Option.some_bind, id_eq,
          Option.some.injEq] at h
        subst h
        apply div_nonneg _ (by positivity)
        apply List.sum_nonneg
        intro q hq
        rcases List.mem_map.mp hq with ⟨c, hc, rfl⟩
        rcases c with _ | v
        · simp at hall
          exact absurd (hall _ hc) (by simp)
        · simpa using hl _ (mem_windowCells hc) v rfl
      · simp [hall] at h
  · simp [hi, Option.join] at h

/-- The RSI formula 100 - 100/(1+rs) is in the interval [0, 100] for every
nonnegative rs. -/
theorem rsiFormula_bounds {rs : ℚ} (h : 0 ≤ rs) :
    0 ≤ 100 - 100 / (1 + rs) ∧ 100 - 100 / (1 + rs) ≤ 100 := by
  have h1 : (0 : ℚ) < 1 + rs := by linarith
  have h2 : 100 / (1 + rs) ≤ 100 := div_le_self (by norm_num) (by linarith)
  have h3 : (0 : ℚ) < 100 / (1 + rs) := by positivity
  constructor <;> linarith

theorem advGain_cells {data : List ℚ} :
    ∀ c ∈ advGain data, ∀ v, c = some v → 0 ≤ v := by
  intro c hc v hv
  rcases List.mem_map.mp hc with ⟨o, _, rfl⟩
  rcases o with _ | d
  · simp at hv; linarith
  · simp only [Option.some.injEq] at hv
    subst hv
    split <;> [linarith; rfl]

theorem advLoss_cells {data : List ℚ} :
    ∀ c ∈ advLoss data, ∀ v, c = some v → 0 ≤ v := by
  intro c hc v hv
  rcases List.mem_map.mp hc with ⟨o, _, rfl⟩
  rcases o with _ | d
  · simp at hv; linarith
  · simp only [Option.some.injEq] at hv
    subst hv
    split <;> [linarith; rfl]

theorem simpleUp_cells {data : List ℚ} :
    ∀ c ∈ simpleUp data, ∀ v, c = some v → 0 ≤ v := by
  intro c hc v hv
  rcases List.mem_map.mp hc with ⟨o, _, rfl⟩
  rcases o with _ | d
  · simp at hv
  · simp only [Option.map_some'] at hv
    injection hv with hv
    subst hv
    split <;> [rfl; linarith]

theorem simpleDown_cells {data : List ℚ} :
    ∀ c ∈ simpleDown data, ∀ v, c = some v → 0 ≤ v := by
  intro c hc v hv
  rcases List.mem_map.mp hc with ⟨o, _, rfl⟩
  rcases o with _ | d
  · simp at hv
  · simp only [Option.map_some'] at hv
    injection hv with hv
    subst hv
    split <;> [rfl; positivity]

theorem seriesGet_eq_some {l : Series} {i : ℕ} {x : ℚ} :
    seriesGet l i = some x ↔ l[i]? = some (some x) := by
  unfold seriesGet
  rcases h : l[i]? with _ | c
  · simp [Option.join]
  · rcases c with _ | v <;> simp [Option.join]

/-- Every defined cell of the RSI series inside calculate_stochastic_rsi
lies in [0, 100]. -/
theorem advRsi_bounds {data : List ℚ} {period i : ℕ} {x : ℚ}
    (h : seriesGet (advRsi data period) i = some x) : 0 ≤ x ∧ x ≤ 100 := by
  rw [seriesGet_eq_some] at h
  unfold advRsi at h
  rw [zipWith_getElem?] at h
  rcases ha : (advAvgGain data period)[i]? with _ | a <;> rw [ha] at h
  · simp at h
  rcases hb : (advAvgLoss data period)[i]? with _ | b <;> rw [hb] at h
  · simp at h
  rcases a with _ | g
  · simp at h
  rcases b with _ | l
  · simp at h
  simp only [Option.some.injEq] at h
  subst h
  have hg : 0 ≤ g := rollingMean_nonneg advGain_cells
    (by rw [advAvgGain] at ha; exact seriesGet_eq_some.mpr ha)
  have hl : 0 ≤ l := rollingMean_nonneg advLoss_cells
    (by rw [advAvgLoss] at hb; exact seriesGet_eq_some.mpr hb)
  apply rsiFormula_bounds
  split
  · exact le_refl 0
  · exact div_nonneg hg hl

/-- Every defined cell of calculate_rsi from simple_rsi.py lies in [0, 100]. -/
theorem simpleRsi_bounds {data : List ℚ} {window i : ℕ} {x : ℚ}
    (h : seriesGet (simpleRsi data window) i = some x) : 0 ≤ x ∧ x ≤ 100 := by
  rw [seriesGet_eq_some] at h
  unfold simpleRsi at h
  rw [zipWith_getElem?] at h
  rcases ha : (simpleRollUp data window)[i]? with _ | a <;> rw [ha] at h
  · simp at h
  rcases hb : (simpleRollDown data window)[i]? with _ | b <;> rw [hb] at h
  · simp at h
  rcases a with _ | u
  · simp at h
  rcases b with _ | d
  · simp at h
  simp only [Option.some.injEq] at h
  subst h
  have hu : 0 ≤ u := rollingMean_nonneg simpleUp_cells
    (by rw [simpleRollUp] at ha; exact seriesGet_eq_some.mpr ha)
  have hd : 0 ≤ d := rollingMean_nonneg simpleDown_cells
    (by rw [simpleRollDown] at hb; exact seriesGet_eq_some.mpr hb)
  apply rsiFormula_bounds
  apply div_nonneg hu
  split
  · positivity
  · exact hd

theorem advGain_length (data : List ℚ) :
    (advGain data).length = (advLoss data).length := by
  simp [advGain, advLoss]

theorem advGain_isSome {data : List ℚ} : ∀ c ∈ advGain data, c.isSome := by
  intro c hc
  rcases List.mem_map.mp hc with ⟨o, _, rfl⟩
  simp

/-- Where the rolling average loss of calculate_stochastic_rsi is defined
and exactly zero, the RSI of the source is 0 (the np.where substitutes
rs = 0 there, so 100 - 100/(1+0) = 0). -/
theorem advRsi_at_zero_loss {data : List ℚ} {period i : ℕ}
    (h : seriesGet (advAvgLoss data period) i = some 0) :
    seriesGet (advRsi data period) i = some 0 := by
  rw [seriesGet_eq_some] at h
  -- extract position facts from the defined avg-loss cell
  unfold advAvgLoss rollingMean at h
  rw [rangeMap_getElem?] at h
  by_cases hi : i < (advLoss data).length
  · simp only [hi, if_true, Option.some.injEq] at h
    by_cases hw : i + 1 < period
    · simp [hw] at h
    · -- the avg-gain cell at i is also defined
      have hgdef : ∃ g, (advAvgGain data period)[i]? = some (some g) := by
        unfold advAvgGain rollingMean
        rw [rangeMap_getElem?]
        have hig : i < (advGain data).length := by rw [advGain_length]; exact hi
        simp only [hig, if_true, hw, if_false]
        have : (windowCells (advGain data) period i).all Option.isSome := by
          rw [List.all_eq_true]
          intro c hc
          exact advGain_isSome c (mem_windowCells hc)
        simp [this]
      rcases hgdef with ⟨g, hg⟩
      rw [seriesGet_eq_some]
      unfold advRsi
      rw [zipWith_getElem?, hg]
      simp only [hw, if_false] at h
      by_cases hall : (windowCells (advLoss data) period i).all Option.isSome
      · simp only [hall, if_true] at h
        unfold advAvgLoss rollingMean
        rw [rangeMap_getElem?]
        simp only [hi, if_true, hw, if_false, hall, if_true, h]
        norm_num
      · simp [hall] at h
  · simp [hi] at h

theorem simpleUp_length (data : List ℚ) :
    (simpleUp data).length = (simpleDown data).length := by
  simp [simpleUp, simpleDown]

theorem windowCells_map (f : Cell → Cell) (l : Series) (w i : ℕ) :
    windowCells (l.map f) w i = (windowCells l w i).map f := by
  simp [windowCells, List.map_take, List.map_drop]

theorem windowCells_map_all_isSome (f : ℚ → ℚ) (l : Series) (w i : ℕ) :
    (windowCells (l.map (Option.map f)) w i).all Option.isSome =
      (windowCells l w i).all Option.isSome := by
  rw [windowCells_map]
  generalize windowCells l w i = win
  induction win with
  | nil => rfl
  | cons c cs ih => cases c <;> simp_all

/-- Where the rolling average loss of calculate_rsi (simple_rsi.py) is
defined and exactly 0, the rolling average gain at the same index is also
defined and nonnegative (the up and down series are NaN at exactly the same
indices), and the source replaces the zero roll_down by 1e-10, so rs =
avg_gain * 10^10 and RSI = 100 - 100/(1 + avg_gain * 10^10), which is
strictly below 100. -/
theorem simpleRsi_at_zero_loss {data : List ℚ} {window i : ℕ}
    (h : seriesGet (simpleRollDown data window) i = some 0) :
    ∃ g, seriesGet (simpleRollUp data window) i = some g ∧ 0 ≤ g ∧
      seriesGet (simpleRsi data window) i = some (100 - 100 / (1 + g * 10 ^ 10)) ∧
      100 - 100 / (1 + g * 10 ^ 10) < 100 := by
  rw [seriesGet_eq_some] at h
  unfold simpleRollDown rollingMean at h
  rw [rangeMap_getElem?] at h
  by_cases hi : i < (simpleDown data).length
  · simp only [hi, if_true, Option.some.injEq] at h
    by_cases hw : i + 1 < window
    · simp [hw] at h
    · simp only [hw, if_false] at h
      by_cases hall : (windowCells (simpleDown data) window i).all Option.isSome
      · -- the avg-gain cell at i is defined as well
        have hiu : i < (simpleUp data).length := by rw [simpleUp_length]; exact hi
        have hallu : (windowCells (simpleUp data) window i).all Option.isSome := by
          unfold simpleUp
          rw [windowCells_map_all_isSome]
          unfold simpleDown at hall
          rwa [windowCells_map_all_isSome] at hall
        have hgdef : ∃ g, (simpleRollUp data window)[i]? = some (some g) := by
          unfold simpleRollUp rollingMean
          rw [rangeMap_getElem?]
          simp only [hiu, if_true, hw, if_false]
          simp [hallu]
        rcases hgdef with ⟨g, hg⟩
        have hup : seriesGet (simpleRollUp data window) i = some g :=
          seriesGet_eq_some.mpr hg
        have hgnn : 0 ≤ g := rollingMean_nonneg simpleUp_cells
          (by rw [simpleRollUp] at hup; exact hup)
        simp only [hall, if_true] at h
        have hdown : (simpleRollDown data window)[i]? = some (some 0) := by
          unfold simpleRollDown rollingMean
          rw [rangeMap_getElem?]
          simp only [hi, if_true, hw, if_false, hall, if_true, h]
        have hlt : 100 - 100 / (1 + g * 10 ^ 10) < 100 := by
          have h1 : (0 : ℚ) ≤ g * 10 ^ 10 :=
            mul_nonneg hgnn (by positivity)
          have h2 : (0 : ℚ) < 100 / (1 + g * 10 ^ 10) :=
            div_pos (by norm_num) (by linarith)
          linarith
        refine ⟨g, hup, hgnn, ?_, hlt⟩
        rw [seriesGet_eq_some]
        unfold simpleRsi
        rw [zipWith_getElem?, hg, hdown]
        have hdiv : g / ((1 : ℚ) / 10 ^ 10) = g * 10 ^ 10 := by
          rw [div_div_eq_mul_div, div_one]
        simp [hdiv]
      · simp [hall] at h
  · simp [hi] at h

/-- A monotone 15-bar price series, 1 to 15. -/
def mono15 : List ℚ := [1, 2, 3, 4, 5, 6, 7, 8, 9, 10, 11, 12, 13, 14, 15]

/-- A monotone 16-bar price series, 1 to 16. -/
def mono16 : List ℚ := [1, 2, 3, 4, 5, 6, 7, 8, 9, 10, 11, 12, 13, 14, 15, 16]

/-- A flat 16-bar price series at price 5. -/
def const16 : List ℚ := List.replicate 16 5

/-- C3: claimed that every defined RSI value lies in [0,100] (true for both
implementations), and that RSI equals 100 wherever the rolling average loss
is exactly 0.  The second half fails: this counterexample evaluates
calculate_stochastic_rsi on the strictly increasing series 1..15 with
period 14; at the last index the rolling average loss is exactly 0, yet the
RSI of the source is 0, not 100 (the np.where substitutes rs = 0 there). -/
theorem C3_counterexample :
    seriesGet (advAvgLoss mono15 14) 14 = some 0 ∧
    seriesGet (advRsi mono15 14) 14 = some 0 ∧ (0 : ℚ) ≠ 100 := by
  refine ⟨?_, ?_, by norm_num⟩
  · norm_num [advAvgLoss, rollingMean, advLoss, sdiff, seriesGet, mono15, windowCells,
      List.range_succ, Option.join]
  · norm_num [advRsi, advAvgGain, advAvgLoss, rollingMean, advLoss, advGain, sdiff, seriesGet,
      mono15, windowCells, List.range_succ, Option.join, zipWith_getElem?]

/-- C3 (amended): for both RSI implementations every defined RSI value lies
in [0,100] and no division by zero can occur; but where the rolling average
loss is exactly 0, calculate_stochastic_rsi yields RSI = 0 (rs is replaced
by 0), and calculate_rsi of simple_rsi.py, whose rolling average gain is
then also defined and nonnegative, yields exactly 100 - 100/(1 + avg_gain *
10^10) (the zero roll_down is replaced by 1e-10), which is strictly below
100; neither implementation returns 100 at such an index. -/
theorem C3_rsi_range_and_zero_loss :
    (∀ (data : List ℚ) (period i : ℕ) (x : ℚ),
      seriesGet (advRsi data period) i = some x → 0 ≤ x ∧ x ≤ 100) ∧
    (∀ (data : List ℚ) (window i : ℕ) (x : ℚ),
      seriesGet (simpleRsi data window) i = some x → 0 ≤ x ∧ x ≤ 100) ∧
    (∀ (data : List ℚ) (period i : ℕ),
      seriesGet (advAvgLoss data period) i = some 0 →
      seriesGet (advRsi data period) i = some 0) ∧
    (∀ (data : List ℚ) (window i : ℕ),
      seriesGet (simpleRollDown data window) i = some 0 →
      ∃ g, seriesGet (simpleRollUp data window) i = some g ∧ 0 ≤ g ∧
        seriesGet (simpleRsi data window) i = some (100 - 100 / (1 + g * 10 ^ 10)) ∧
        100 - 100 / (1 + g * 10 ^ 10) < 100) :=
  ⟨fun _ _ _ _ h => advRsi_bounds h,
   fun _ _ _ _ h => simpleRsi_bounds h,
   fun _ _ _ h => advRsi_at_zero_loss h,
   fun _ _ _ h => simpleRsi_at_zero_loss h⟩

/-- Witness: the four parts of the amended C3 theorem applied at concrete
series, with every hypothesis evaluated.  On the flat series the rolling
average loss of calculate_rsi at the last index is a defined 0, so the
fourth part applies there. -/
theorem C3_rsi_range_and_zero_loss_witness :
    ((0 : ℚ) ≤ 0 ∧ (0 : ℚ) ≤ 100) ∧
    ((0 : ℚ) ≤ 0 ∧ (0 : ℚ) ≤ 100) ∧
    seriesGet (advRsi mono15 14) 14 = some 0 ∧
    (∃ g, seriesGet (simpleRollUp const16 14) 14 = some g ∧ 0 ≤ g ∧
      seriesGet (simpleRsi const16 14) 14 = some (100 - 100 / (1 + g * 10 ^ 10)) ∧
      100 - 100 / (1 + g * 10 ^ 10) < 100) :=
  ⟨C3_rsi_range_and_zero_loss.1 mono15 14 14 0
    (by norm_num [advRsi, advAvgGain, advAvgLoss, rollingMean, advLoss, advGain, sdiff,
      seriesGet, mono15, windowCells, List.range_succ, Option.join, zipWith_getElem?]),
   C3_rsi_range_and_zero_loss.2.1 const16 14 14 0
    (by norm_num [simpleRsi, simpleRollUp, simpleRollDown, rollingMean, simpleUp, simpleDown,
      sdiff, seriesGet, const16, windowCells, List.range_succ, Option.join, zipWith_getElem?,
      List.replicate]),
   C3_rsi_range_and_zero_loss.2.2.1 mono15 14 14
    (by norm_num [advAvgLoss, rollingMean, advLoss, sdiff, seriesGet, mono15, windowCells,
      List.range_succ, Option.join]),
   C3_rsi_range_and_zero_loss.2.2.2 const16 14 14
    (by norm_num [simpleRollDown, rollingMean, simpleDown, sdiff, seriesGet, const16,
      windowCells, List.range_succ, Option.join, List.replicate])⟩

/-- EMA of a constant prefix stays at the constant: the recursive
adjust=False smoothing maps c to (1-a)*c + a*c = c. -/
theorem emaFrom_const (a c : ℚ) : ∀ k, emaFrom a c (List.replicate k c) = List.replicate k c
  | 0 => rfl
  | k + 1 => by
    simp only [List.replicate_succ, emaFrom]
    have he : (1 - a) * c + a * c = c := by ring
    rw [he, emaFrom_const a c k]

/-- C10: calculate_ema applied to a constant series of any length and any
period returns that constant at every index (every cell is defined with
adjust=False, and all equal the constant). -/
theorem C10_ema_constant (c : ℚ) (n period : ℕ) :
    calculate_ema (List.replicate n c) period = List.replicate n c := by
  cases n with
  | zero => rfl
  | succ m =>
    simp only [List.replicate_succ, calculate_ema]
    rw [emaFrom_const]

/-! ## multi_signal_analyzer.py, advanced_indicators.py: fusion engine -/

/-- calculate_macd from advanced_indicators.py: EMA(fast) - EMA(slow),
signal = EMA(macd, signal period), histogram = macd - signal.  The
try/except of the source cannot fire on numeric input (ewm and subtraction
do not raise), so the embedding is total. -/
def emaSeriesFrom (a : ℚ) : Option ℚ → Series → Series
  | _, [] => []
  | carry, c :: rest =>
    match carry, c with
    | none, none => none :: emaSeriesFrom a none rest
    | none, some x => some x :: emaSeriesFrom a (some x) rest
    | some p, none => none :: emaSeriesFrom a (some p) rest
    | some p, some x =>
      let e := (1 - a) * p + a * x
      some e :: emaSeriesFrom a (some e) rest

/-- Series.ewm(span=period, adjust=False).mean() on a series that may hold
NaN cells: NaN cells stay NaN and do not advance the recursion, matching
the pandas default ignore_na handling for the positions that the claims
touch (the sources only apply it to fully defined price series). -/
def emaSeries (data : Series) (period : ℕ) : Series :=
  emaSeriesFrom (2 / ((period : ℚ) + 1)) none data

def calculate_macd (data : Series) (fast slow signal : ℕ) : Series × Series × Series :=
  let fastE := emaSeries data fast
  let slowE := emaSeries data slow
  let macdLine := cellZip (· - ·) fastE slowE
  let signalLine := emaSeries macdLine signal
  (macdLine, signalLine, cellZip (· - ·) macdLine signalLine)

/-- The dictionary returned by calculate_bollinger_bands in
advanced_indicators.py, with its six keys in insertion order. -/
structure BollingerResult where
  high_band : Series
  mid_band : Series
  low_band : Series
  width : Series
  price_above_high : List Bool
  price_below_low : List Bool

/-- Keys of the calculate_bollinger_bands dictionary, in insertion order;
iterating the dictionary (as tuple unpacking does) yields these. -/
def bollingerKeys : List String :=
  ["high_band", "mid_band", "low_band", "width", "price_above_high", "price_below_low"]

/-- The output of the external ta BollingerBands object. -/
structure TaBollOut where
  hband : Series
  lband : Series
  mavg : Series

/-- calculate_bollinger_bands from advanced_indicators.py: on success a
six-key dictionary, on an exception inside the try block the function
returns None.  The external ta library call is an oracle that may raise. -/
def calculate_bollinger_bands (taBoll : Series → Except String TaBollOut)
    (data : Series) : Option BollingerResult :=
  match taBoll data with
  | .error _ => none
  | .ok t =>
    some { high_band := t.hband
           mid_band := t.mavg
           low_band := t.lband
           width := cellDivZ (cellZip (· - ·) t.hband t.lband) t.mavg
           price_above_high := data.zipWith (fun a b => cGtC a b) t.hband
           price_below_low := data.zipWith (fun a b => cGtC b a) t.lband }

/-- Python semantics of the statement a, b, c = calculate_bollinger_bands(...):
unpacking None raises TypeError; unpacking a dict iterates its keys, and a
key count different from 3 raises ValueError.  The dict has 6 keys, so this
always raises. -/
def unpack3OfBollinger (o : Option BollingerResult) :
    Except String (String × String × String) :=
  match o with
  | none => .error "TypeError: cannot unpack non-iterable NoneType object"
  | some _ =>
    if bollingerKeys.length = 3 then
      .ok ("high_band", "mid_band", "low_band")
    else .error "ValueError: too many values to unpack (expected 3)"

/-- The dictionary returned by check_ema_crossover in advanced_indicators.py
(five keys: short_ema, long_ema, position, bullish_crossover,
bearish_crossover). -/
structure EmaCrossResult where
  short_ema : Cell
  long_ema : Cell
  position : String
  bullish_crossover : Bool
  bearish_crossover : Bool

/-- Keys of the check_ema_crossover dictionary, in insertion order. -/
def emaCrossKeys : List String :=
  ["short_ema", "long_ema", "position", "bullish_crossover", "bearish_crossover"]

/-- check_ema_crossover from advanced_indicators.py.  An empty input makes
iloc[-1] raise IndexError, caught by the except branch that returns the
unknown-position dictionary; otherwise the last and second-to-last EMA
cells are compared with NaN-is-false semantics. -/
def check_ema_crossover (data : Series) (shortP longP : ℕ) : EmaCrossResult :=
  let shortE := emaSeries data shortP
  let longE := emaSeries data longP
  match shortE.getLast?, longE.getLast? with
  | some cs, some cl =>
    let ps : Cell := if 1 < shortE.length then (shortE[shortE.length - 2]?).join else none
    let pl : Cell := if 1 < longE.length then (longE[longE.length - 2]?).join else none
    let bull := match ps, pl with
      | some a, some b => decide (a < b) && cGtC cs cl
      | _, _ => false
    let bear := match ps, pl with
      | some a, some b => decide (b < a) && cGtC cl cs
      | _, _ => false
    { short_ema := cs, long_ema := cl
      position := if cGtC cs cl then "bullish" else "bearish"
      bullish_crossover := bull, bearish_crossover := bear }
  | _, _ =>
    { short_ema := none, long_ema := none, position := "unknown"
      bullish_crossover := false, bearish_crossover := false }

/-- Python semantics of golden_cross, death_cross = check_ema_crossover(...):
the returned dict has 5 keys, so two-variable unpacking always raises
ValueError. -/
def unpack2OfEmaCross (_ : EmaCrossResult) : Except String (String × String) :=
  if emaCrossKeys.length = 2 then
    .ok ("short_ema", "long_ema")
  else .error "ValueError: too many values to unpack (expected 2)"

/-! ## DataFrame model -/

/-- A pandas DataFrame: an explicit row count (the index length) together
with named columns.  Column assignment aligns on the index in pandas; the
sources only ever assign series produced from columns of the same frame, so
alignment is the identity here. -/
structure Frame where
  nRows : ℕ
  cols : List (String × Series)

/-- Column lookup, none when the column is absent. -/
def Frame.getCol? (f : Frame) (name : String) : Option Series :=
  (f.cols.find? (fun p => p.1 == name)).map (fun p => p.2)

/-- df[name] read access: a missing column raises KeyError. -/
def Frame.col (f : Frame) (name : String) : Except String Series :=
  match f.getCol? name with
  | some s => .ok s
  | none => .error ("KeyError: " ++ name)

/-- name in df.columns. -/
def Frame.hasCol (f : Frame) (name : String) : Bool := (f.getCol? name).isSome

/-- df[name] = series: replaces the column or appends it. -/
def Frame.setCol (f : Frame) (name : String) (s : Series) : Frame :=
  if f.hasCol name then
    ⟨f.nRows, f.cols.map (fun p => if p.1 == name then (name, s) else p)⟩
  else ⟨f.nRows, f.cols ++ [(name, s)]⟩

/-- df.iloc[: k]: the first k rows of every column. -/
def Frame.takeRows (f : Frame) (k : ℕ) : Frame :=
  ⟨min k f.nRows, f.cols.map (fun p => (p.1, p.2.take k))⟩

/-- The last cell of a column, as df[name].iloc[-1]: a missing column
raises KeyError and an empty column raises IndexError. -/
def Frame.lastCell (f : Frame) (name : String) : Except String Cell := do
  let s ← f.col name
  match s.getLast? with
  | some c => .ok c
  | none => .error ("IndexError: " ++ name)

/-! ## _analyze_technical_indicators -/

/-- Result dictionary of _analyze_technical_indicators.  The two neutral
branches return exactly the keys overall_signal, confidence and an
explanation text; the success branch of the source would additionally
carry signal_score (here an Option to model key presence), an indicators
dictionary and a signals dictionary, but that branch is unreachable, as
proved below, so only the key tested by the fusion engine (signal_score,
read with .get) is modelled for it. -/
structure TechResult where
  overall_signal : String
  confidence : ℚ
  expl : String
  signal_score : Option ℚ

/-- The external collaborators of the multi-signal analyzer: the ta
Bollinger object (which may raise), the on-chain and social scorers
(simulations driven by random, so opaque inputs of the embedding), and the
clock. -/
structure OnchainResult where
  score : ℚ

structure SocialResult where
  sentiment : String
  score : ℚ
  agreement : String

structure MsEnv where
  taBoll : Series → Except String TaBollOut
  onchain : String → String → OnchainResult
  social : String → SocialResult
  now : ℚ

/-- The dictionary of the insufficient-data branch (price_data None or
fewer than 30 rows), lines 139-143 of multi_signal_analyzer.py. -/
def neutralTechShort : TechResult :=
  { overall_signal := "Neutral", confidence := 50
    expl := "Insufficient price data for technical analysis", signal_score := none }

/-- The dictionary of the except branch, lines 301-305. -/
def neutralTechErr (e : String) : TechResult :=
  { overall_signal := "Neutral", confidence := 50
    expl := "Error in technical analysis: " ++ e, signal_score := none }

/-- The try block of _analyze_technical_indicators, lines 146-171.  The
statements through line 162 are total pandas transforms; line 165 unpacks
the six-key dictionary returned by calculate_bollinger_bands into three
variables, which raises, and line 171 would unpack the five-key dictionary
of check_ema_crossover into two.  The remaining lines 173-297 never run:
the block always leaves through an exception, so it is modelled with
result type Unit, and the sequel is the dead continuation below. -/
def techTryBlock (env : MsEnv) (price_data : Frame) : Except String Unit := do
  let close ← price_data.col "Close"
  let delta := sdiff 1 close
  let gain : Series := delta.map (fun o =>
    some (match o with | none => 0 | some d => if 0 < d then d else 0))
  let loss : Series := delta.map (fun o =>
    some (match o with | none => 0 | some d => if d < 0 then -d else 0))
  let avg_gain := rollingMean 14 gain
  let avg_loss := rollingMean 14 loss
  let rs := cellDivZ avg_gain avg_loss
  let rsiCol := cellMap (fun r => 100 - 100 / (1 + r)) rs
  let df1 := price_data.setCol "RSI" rsiCol
  let (macdL, macdS, macdH) := calculate_macd close 12 26 9
  let df2 := ((df1.setCol "MACD" macdL).setCol "MACD_Signal" macdS).setCol "MACD_Hist" macdH
  let _ ← unpack3OfBollinger (calculate_bollinger_bands env.taBoll close)
  let _ ← unpack2OfEmaCross (check_ema_crossover close 50 200)
  let _ := df2
  pure ()

/-- The continuation after line 171 of the source.  It is unreachable (the
theorem techTryBlock_errors proves the try block always raises before it,
and in Python the string keys bound by a hypothetically successful unpack
would raise TypeError at the first numeric comparison on line 193), so any
value serves; the error dictionary is used. -/
def deadTechContinuation : TechResult := neutralTechErr "unreachable"

/-- _analyze_technical_indicators of multi_signal_analyzer.py. -/
def analyze_technical (env : MsEnv) (price_data : Option Frame) : TechResult :=
  match price_data with
  | none => neutralTechShort
  | some df =>
    if df.nRows < 30 then neutralTechShort
    else
      match techTryBlock env df with
      | .error e => neutralTechErr e
      | .ok _ => deadTechContinuation

/-- The try block of _analyze_technical_indicators always raises: either
df[Close] raises KeyError, or the three-variable unpack of the six-key
Bollinger dictionary (or of None) raises. -/
theorem techTryBlock_errors (env : MsEnv) (df : Frame) :
    ∃ e, techTryBlock env df = .error e := by
  unfold techTryBlock
  rcases hc : df.col "Close" with e | close
  · exact ⟨e, by simp [hc, Bind.bind, Except.bind]⟩
  · rcases hb : calculate_bollinger_bands env.taBoll close with _ | b
    · exact ⟨"TypeError: cannot unpack non-iterable NoneType object",
        by simp [hc, hb, unpack3OfBollinger, Bind.bind, Except.bind]⟩
    · exact ⟨"ValueError: too many values to unpack (expected 3)",
        by simp [hc, hb, unpack3OfBollinger, bollingerKeys, Bind.bind, Except.bind]⟩

/-! ## _calculate_combined_signal -/

/-- The timeframe weights of _calculate_combined_signal: technical,
on-chain, social. -/
def combinedWeights (timeframe : String) : ℚ × ℚ × ℚ :=
  if timeframe == "1h" then (1/2, 1/5, 3/10)
  else if timeframe == "1d" then (2/5, 3/10, 3/10)
  else (3/10, 1/2, 1/5)

/-- The per-source direction labels used for the confidence agreement
bonus, lines 375-379: threshold 3 on the normalized scale. -/
def signalLabel3 (x : ℚ) : String :=
  if 3 < x then "Bullish" else if x < -3 then "Bearish" else "Neutral"

/-- The agreement tiering on three labels shared by the confidence bonus
(lines 385-393) and the agreement field (lines 86-95): count Bullish and
Bearish occurrences; 3 of a kind, else 2 of a kind, else neither. -/
def tierOf3 (labels : List String) (all2 two1 zero : α) : α :=
  let bc := (labels.filter (fun s => s == "Bullish")).length
  let brc := (labels.filter (fun s => s == "Bearish")).length
  if bc = 3 ∨ brc = 3 then all2
  else if 2 ≤ bc ∨ 2 ≤ brc then two1
  else zero

structure CombinedOut where
  score : ℚ
  confidence : ℚ
  prediction : String
  expl : String

/-- _calculate_combined_signal of multi_signal_analyzer.py.  The decimal
rendering of numbers inside the explanation text is abbreviated with
toString; no claim concerns those digits. -/
def calc_combined (technical : TechResult) (onchain : OnchainResult)
    (social : SocialResult) (timeframe : String) : CombinedOut :=
  let technical_score := technical.signal_score.getD 0
  let onchain_score := onchain.score / 10
  let social_score := social.score * 10
  let w := combinedWeights timeframe
  let combined_score :=
    technical_score * w.1 + onchain_score * w.2.1 + social_score * w.2.2
  let prediction :=
    if 2 < combined_score then "Bullish"
    else if combined_score < -2 then "Bearish"
    else "Neutral"
  let score_confidence := 50 + |combined_score| * 5
  let agreement_bonus : ℚ :=
    tierOf3 [signalLabel3 technical_score, signalLabel3 onchain_score,
      signalLabel3 social_score] 20 10 0
  let combined_confidence := min 100 (score_confidence + agreement_bonus)
  let header := timeframe.toUpper ++ " Forecast: " ++ prediction ++ " with " ++
    toString combined_confidence ++ "% confidence. "
  let expl :=
    if prediction == "Bullish" then
      header ++ "Positive signals from " ++ String.intercalate ", "
        (((if 0 < technical_score then
            ["technical indicators (" ++ technical.expl ++ ")"] else []) ++
          (if 0 < onchain_score then
            ["on-chain data (exchange outflows suggest accumulation)"] else []) ++
          (if 0 < social_score then
            ["social sentiment (" ++ social.agreement ++ " agreement across platforms)"]
           else [])))
    else if prediction == "Bearish" then
      header ++ "Negative signals from " ++ String.intercalate ", "
        (((if technical_score < 0 then
            ["technical indicators (" ++ technical.expl ++ ")"] else []) ++
          (if onchain_score < 0 then
            ["on-chain data (increasing exchange inflows suggest distribution)"] else []) ++
          (if social_score < 0 then
            ["social sentiment (" ++ social.agreement ++ " agreement across platforms)"]
           else [])))
    else
      header ++ "Mixed signals: " ++
        (if |technical_score| < 3 then "Technical indicators are neutral. " else "") ++
        (if |onchain_score| < 3 then "On-chain metrics show no clear trend. " else "") ++
        (if |social_score| < 3 then "Social sentiment is balanced. " else "")
  { score := combined_score, confidence := combined_confidence
    prediction := prediction, expl := expl }

/-! ## analyze_all_signals and its cache -/

/-- A fused analysis result.  The success dictionary carries all fields;
the except branch of the source would omit score and the signals
sub-dictionary, but that branch cannot fire (every step of the try block
is total in the embedding), so all fields are present. -/
structure AnalyzeResult where
  symbol : String
  timeframe : String
  prediction : String
  confidence : ℚ
  score : ℚ
  expl : String
  agreement : String
  technical : TechResult
  onchainR : OnchainResult
  socialR : SocialResult

/-- The analyzer cache: key to (timestamp, result), a Python dict in
insertion order. -/
abbrev MsCache := List (String × ℚ × AnalyzeResult)

/-- _get_cached_data with the 1800 second TTL. -/
def getCachedData (cache : MsCache) (now : ℚ) (key : String) : Option AnalyzeResult :=
  match cache.find? (fun p => p.1 == key) with
  | some (_, ts, d) => if now - ts < 1800 then some d else none
  | none => none

/-- _set_cache: store (timestamp, data) under the key. -/
def setCache (cache : MsCache) (key : String) (now : ℚ) (d : AnalyzeResult) : MsCache :=
  if cache.any (fun p => p.1 == key) then
    cache.map (fun p => if p.1 == key then (key, now, d) else p)
  else cache ++ [(key, now, d)]

/-- The on-chain label of line 82: threshold 20 on the raw -100..100 score. -/
def onchainLabel20 (x : ℚ) : String :=
  if 20 < x then "Bullish" else if x < -20 then "Bearish" else "Neutral"

/-- analyze_all_signals of multi_signal_analyzer.py, with the shared cache
passed and returned explicitly.  A fresh cache entry within the TTL is
returned as is; otherwise the result is computed and written into the
cache before returning.  Every step of the try block is total here, so the
except branch of the source cannot fire and is not modelled. -/
def analyze_all_signals (env : MsEnv) (cache : MsCache) (symbol : String)
    (price_data : Option Frame) (timeframe : String) : AnalyzeResult × MsCache :=
  let key := "multi_signal_" ++ symbol ++ "_" ++ timeframe
  match getCachedData cache env.now key with
  | some d => (d, cache)
  | none =>
    let technical := analyze_technical env price_data
    let onchain_tf := if timeframe == "1h" || timeframe == "1d" then "24h" else "7d"
    let onchain := env.onchain symbol onchain_tf
    let social := env.social symbol
    let c := calc_combined technical onchain social timeframe
    let agreement := tierOf3
      [technical.overall_signal, onchainLabel20 onchain.score, social.sentiment]
      "Strong" "Moderate" "Weak"
    let result : AnalyzeResult :=
      { symbol := symbol, timeframe := timeframe, prediction := c.prediction
        confidence := c.confidence, score := c.score, expl := c.expl
        agreement := agreement, technical := technical
        onchainR := onchain, socialR := social }
    (result, setCache cache key env.now result)

/-- _analyze_technical_indicators always lands in one of the two neutral
dictionaries. -/
theorem analyze_technical_neutral (env : MsEnv) (pd : Option Frame) :
    analyze_technical env pd = neutralTechShort ∨
    ∃ e, analyze_technical env pd = neutralTechErr e := by
  unfold analyze_technical
  rcases pd with _ | df
  · exact Or.inl rfl
  · by_cases h : df.nRows < 30
    · simp [h]
    · obtain ⟨e, he⟩ := techTryBlock_errors env df
      simp [h, he]

/-- C9: for every input, _analyze_technical_indicators returns overall
signal Neutral, confidence 50 and no signal_score key (the try block
always raises at the dictionary unpack of line 165, or the input is too
short); hence the technical term of the fused score is 0 and the combined
score is the weighted sum of the on-chain and social terms alone. -/
theorem C9_technical_always_neutral (env : MsEnv) (pd : Option Frame)
    (onchain : OnchainResult) (social : SocialResult) (tf : String) :
    (analyze_technical env pd).overall_signal = "Neutral" ∧
    (analyze_technical env pd).confidence = 50 ∧
    (analyze_technical env pd).signal_score = none ∧
    (calc_combined (analyze_technical env pd) onchain social tf).score =
      onchain.score / 10 * (combinedWeights tf).2.1 +
      social.score * 10 * (combinedWeights tf).2.2 := by
  have hfields : (analyze_technical env pd).overall_signal = "Neutral" ∧
      (analyze_technical env pd).confidence = 50 ∧
      (analyze_technical env pd).signal_score = none := by
    rcases analyze_technical_neutral env pd with h | ⟨e, h⟩ <;>
      rw [h] <;> exact ⟨rfl, rfl, rfl⟩
  refine ⟨hfields.1, hfields.2.1, hfields.2.2, ?_⟩
  simp only [calc_combined, hfields.2.2, Option.getD_none]
  ring

/-- C5: the fusion weights are 0.5/0.2/0.3 for the short timeframe,
0.4/0.3/0.3 for the medium and 0.3/0.5/0.2 for the long; for every
timeframe string they sum to 1; and for scorer outputs inside their
contractual ranges the combined weighted score lies in [-10, 10]. -/
theorem C5_weights_and_bounds :
    combinedWeights "1h" = (1/2, 1/5, 3/10) ∧
    combinedWeights "1d" = (2/5, 3/10, 3/10) ∧
    combinedWeights "1w" = (3/10, 1/2, 1/5) ∧
    (∀ tf : String,
      (combinedWeights tf).1 + (combinedWeights tf).2.1 + (combinedWeights tf).2.2 = 1) ∧
    (∀ (technical : TechResult) (onchain : OnchainResult) (social : SocialResult)
      (tf : String),
      -10 ≤ technical.signal_score.getD 0 → technical.signal_score.getD 0 ≤ 10 →
      -100 ≤ onchain.score → onchain.score ≤ 100 →
      -1 ≤ social.score → social.score ≤ 1 →
      |(calc_combined technical onchain social tf).score| ≤ 10) := by
  refine ⟨rfl, rfl, rfl, ?_, ?_⟩
  · intro tf
    unfold combinedWeights
    split_ifs <;> norm_num
  · intro technical onchain social tf h1 h2 h3 h4 h5 h6
    simp only [calc_combined]
    unfold combinedWeights
    split_ifs <;> (rw [abs_le]; constructor <;> simp only [] <;> linarith)

/-- Concrete scorer outputs for the C5 witness. -/
def c5Tech : TechResult :=
  { overall_signal := "Neutral", confidence := 50, expl := "", signal_score := some 5 }

def c5On : OnchainResult := { score := 50 }

def c5Soc : SocialResult := { sentiment := "Bullish", score := 1/2, agreement := "Weak" }

/-- Witness for the C5 bound at a concrete scorer output. -/
theorem C5_weights_and_bounds_witness :
    |(calc_combined c5Tech c5On c5Soc "1h").score| ≤ 10 :=
  C5_weights_and_bounds.2.2.2.2 c5Tech c5On c5Soc "1h" (by norm_num [c5Tech])
    (by norm_num [c5Tech]) (by norm_num [c5On]) (by norm_num [c5On])
    (by norm_num [c5Soc]) (by norm_num [c5Soc])

/-- The per-source directional classification in the words of the claim
(threshold 3 on the common normalized scale), stated only to compare the
claim with the code: the source instead uses the overall_signal label of
the technical dictionary, threshold 20 on the raw on-chain score, and the
sentiment label of the social dictionary. -/
def specDirectionalLabel (x : ℚ) : String :=
  if 3 < x then "Bullish" else if x < -3 then "Bearish" else "Neutral"

/-- A concrete environment: ta raises, the on-chain score is 0, the social
sentiment is Neutral with score 0. -/
def envC4 : MsEnv :=
  { taBoll := fun _ => .error "ta unavailable"
    onchain := fun _ _ => { score := 0 }
    social := fun _ => { sentiment := "Neutral", score := 0, agreement := "Weak" }
    now := 0 }

/-- C4 counterexample: with on-chain score 0, social score 0 and sentiment
Neutral (and the technical classification Neutral as always), all three
per-source directional classifications under the claimed threshold-3 rule
match (all Neutral), yet the agreement of the fused result is Weak, not
Strong, refuting the claimed if-and-only-if. -/
theorem C4_counterexample :
    specDirectionalLabel ((analyze_technical envC4 none).signal_score.getD 0) = "Neutral" ∧
    specDirectionalLabel ((envC4.onchain "BTC" "24h").score / 10) = "Neutral" ∧
    specDirectionalLabel ((envC4.social "BTC").score * 10) = "Neutral" ∧
    (analyze_all_signals envC4 [] "BTC" none "1d").1.agreement = "Weak" := by
  refine ⟨?_, ?_, ?_, ?_⟩
  · norm_num [analyze_technical, neutralTechShort, specDirectionalLabel]
  · norm_num [envC4, specDirectionalLabel]
  · norm_num [envC4, specDirectionalLabel]
  · decide

/-- The 3/2/else tiering on three labels, characterized extensionally. -/
theorem tierOf3_char (t o s : String) :
    (tierOf3 [t, o, s] "Strong" "Moderate" "Weak" = "Strong" ↔
      (t = "Bullish" ∧ o = "Bullish" ∧ s = "Bullish") ∨
      (t = "Bearish" ∧ o = "Bearish" ∧ s = "Bearish")) ∧
    (tierOf3 [t, o, s] "Strong" "Moderate" "Weak" = "Moderate" ↔
      (¬((t = "Bullish" ∧ o = "Bullish" ∧ s = "Bullish") ∨
         (t = "Bearish" ∧ o = "Bearish" ∧ s = "Bearish"))) ∧
      (((t = "Bullish" ∧ o = "Bullish") ∨ (t = "Bullish" ∧ s = "Bullish") ∨
        (o = "Bullish" ∧ s = "Bullish")) ∨
       ((t = "Bearish" ∧ o = "Bearish") ∨ (t = "Bearish" ∧ s = "Bearish") ∨
        (o = "Bearish" ∧ s = "Bearish")))) ∧
    (tierOf3 [t, o, s] "Strong" "Moderate" "Weak" = "Weak" ↔
      ¬(((t = "Bullish" ∧ o = "Bullish") ∨ (t = "Bullish" ∧ s = "Bullish") ∨
        (o = "Bullish" ∧ s = "Bullish")) ∨
       ((t = "Bearish" ∧ o = "Bearish") ∨ (t = "Bearish" ∧ s = "Bearish") ∨
        (o = "Bearish" ∧ s = "Bearish")))) := by
  by_cases h1 : t = "Bullish" <;> by_cases h2 : t = "Bearish" <;>
    by_cases h3 : o = "Bullish" <;> by_cases h4 : o = "Bearish" <;>
    by_cases h5 : s = "Bullish" <;> by_cases h6 : s = "Bearish" <;>
    simp_all [tierOf3]

/-- C4 (amended): on a cache miss, the agreement label of the fused result
is Strong iff the three labels of the source (the technical overall_signal,
the on-chain classification with threshold 20 on the raw score, and the
social sentiment label) are all Bullish or all Bearish; Moderate iff not
that and at least two of them are Bullish or at least two are Bearish; and
Weak otherwise.  All-Neutral agreement is Weak, not Strong. -/
theorem C4_agreement_characterization (env : MsEnv) (cache : MsCache)
    (symbol : String) (pd : Option Frame) (tf : String)
    (hmiss : getCachedData cache env.now ("multi_signal_" ++ symbol ++ "_" ++ tf) = none) :
    let r := (analyze_all_signals env cache symbol pd tf).1
    let t := (analyze_technical env pd).overall_signal
    let o := onchainLabel20
      (env.onchain symbol (if tf == "1h" || tf == "1d" then "24h" else "7d")).score
    let s := (env.social symbol).sentiment
    (r.agreement = "Strong" ↔
      (t = "Bullish" ∧ o = "Bullish" ∧ s = "Bullish") ∨
      (t = "Bearish" ∧ o = "Bearish" ∧ s = "Bearish")) ∧
    (r.agreement = "Moderate" ↔
      (¬((t = "Bullish" ∧ o = "Bullish" ∧ s = "Bullish") ∨
         (t = "Bearish" ∧ o = "Bearish" ∧ s = "Bearish"))) ∧
      (((t = "Bullish" ∧ o = "Bullish") ∨ (t = "Bullish" ∧ s = "Bullish") ∨
        (o = "Bullish" ∧ s = "Bullish")) ∨
       ((t = "Bearish" ∧ o = "Bearish") ∨ (t = "Bearish" ∧ s = "Bearish") ∨
        (o = "Bearish" ∧ s = "Bearish")))) ∧
    (r.agreement = "Weak" ↔
      ¬(((t = "Bullish" ∧ o = "Bullish") ∨ (t = "Bullish" ∧ s = "Bullish") ∨
        (o = "Bullish" ∧ s = "Bullish")) ∨
       ((t = "Bearish" ∧ o = "Bearish") ∨ (t = "Bearish" ∧ s = "Bearish") ∨
        (o = "Bearish" ∧ s = "Bearish")))) := by
  intro r t o s
  have hr : r.agreement = tierOf3 [t, o, s] "Strong" "Moderate" "Weak" := by
    simp only [r, t, o, s, analyze_all_signals, hmiss]
  rw [hr]
  exact tierOf3_char t o s

/-- Witness: the amended C4 theorem applied to the concrete environment
(cache empty, so a miss), where the three labels are Neutral, Neutral,
Neutral: agreement is Weak. -/
theorem C4_agreement_characterization_witness :
    (analyze_all_signals envC4 [] "BTC" none "1d").1.agreement = "Weak" := by
  have h := C4_agreement_characterization envC4 [] "BTC" none "1d" (by rfl)
  simp only at h
  rw [(h.2.2 : _ ↔ _)]
  decide

/-- C8 counterexample: a single call of analyze_all_signals on an empty
cache returns a modified cache, so the shared mutable cache state is NOT
left unchanged by the call. -/
theorem C8_counterexample :
    (analyze_all_signals envC4 [] "BTC" none "1d").2 ≠ [] := by
  simp [analyze_all_signals, getCachedData, setCache]

/-- C8 (amended): analyze_all_signals is not side-effect-free with respect
to the analyzer cache: on a miss (key absent or entry at least 1800
seconds old) it writes the freshly computed result into the shared cache
before returning, and on a hit within the TTL it returns the cached result
with the cache unchanged and without recomputation. -/
theorem C8_cache_read_write (env : MsEnv) (cache : MsCache) (symbol : String)
    (pd : Option Frame) (tf : String) :
    (getCachedData cache env.now ("multi_signal_" ++ symbol ++ "_" ++ tf) = none →
      (analyze_all_signals env cache symbol pd tf).2 =
        setCache cache ("multi_signal_" ++ symbol ++ "_" ++ tf) env.now
          (analyze_all_signals env cache symbol pd tf).1) ∧
    (∀ d, getCachedData cache env.now ("multi_signal_" ++ symbol ++ "_" ++ tf) = some d →
      analyze_all_signals env cache symbol pd tf = (d, cache)) := by
  constructor
  · intro h
    simp [analyze_all_signals, h]
  · intro d h
    simp [analyze_all_signals, h]

/-- A cached fused result used by the C8 witness. -/
def dummyAnalyze : AnalyzeResult :=
  { symbol := "BTC", timeframe := "1d", prediction := "Neutral", confidence := 50
    score := 0, expl := "", agreement := "Weak", technical := neutralTechShort
    onchainR := { score := 0 }
    socialR := { sentiment := "Neutral", score := 0, agreement := "Weak" } }

/-- Witness: both halves of the C8 theorem at concrete inputs: a miss on
the empty cache writes the result, and a fresh entry is returned as is. -/
theorem C8_cache_read_write_witness :
    ((analyze_all_signals envC4 [] "BTC" none "1d").2 =
      setCache [] ("multi_signal_" ++ "BTC" ++ "_" ++ "1d") envC4.now
        (analyze_all_signals envC4 [] "BTC" none "1d").1) ∧
    (analyze_all_signals envC4 [("multi_signal_BTC_1d", 0, dummyAnalyze)] "BTC" none "1d" =
      (dummyAnalyze, [("multi_signal_BTC_1d", 0, dummyAnalyze)])) :=
  ⟨(C8_cache_read_write envC4 [] "BTC" none "1d").1 rfl,
   (C8_cache_read_write envC4 [("multi_signal_BTC_1d", 0, dummyAnalyze)] "BTC" none "1d").2
     dummyAnalyze (by
      have hs : "multi_signal_" ++ "BTC" ++ "_" ++ "1d" = "multi_signal_BTC_1d" := by decide
      rw [getCachedData, hs]
      norm_num [List.find?, envC4])⟩

/-! ## enhanced_ml.py: generate_features -/

/-- Series.shift(-1): cell i becomes cell i+1; the last cell becomes NaN. -/
def shiftUp (l : Series) : Series :=
  (List.range l.length).map (fun i => seriesGet l (i + 1))

/-- Series.pct_change(1): x i / x (i-1) - 1, NaN at index 0 and where a
neighbour is NaN.  A zero previous value gives 0/0 = NaN or x/0 = inf in
pandas; both are modelled as a missing cell (no claim reads the value). -/
def pctChange1 (l : Series) : Series :=
  (List.range l.length).map (fun i =>
    if i = 0 then none
    else match seriesGet l i, seriesGet l (i - 1) with
      | some a, some b => if b = 0 then none else some (a / b - 1)
      | _, _ => none)

/-- The external indicator oracles used by generate_features: the ta
library indicator classes and the pandas rolling standard deviation.  Each
may raise; on success it returns an index-aligned series. -/
structure TaEnv where
  taRsi : Series → Except String Series
  taMacd : Series → Except String (Series × Series × Series)
  taEma : ℕ → Series → Except String Series
  taBollinger : Series → Except String (Series × Series × Series)
  taStoch : Series → Series → Series → Except String (Series × Series)
  taAdx : Series → Series → Series → Except String Series
  taObv : Series → Series → Except String Series
  taStochRsi : Series → Except String (Series × Series)
  rollingStd : ℕ → Series → Except String Series

/-- Lines 31-39 of generate_features: a missing required column is
synthesized, Volume as the 0 scalar broadcast and Open/High/Low as copies
of Close; a missing Close makes the copy itself raise KeyError. -/
def synthOne (c : String) (f : Frame) : Except String Frame :=
  if f.hasCol c then .ok f
  else if c == "Volume" then .ok (f.setCol c (constSeries f.nRows 0))
  else do
    let cl ← f.col "Close"
    .ok (f.setCol c cl)

def synthAll (f : Frame) : Except String Frame := do
  let f1 ← synthOne "Open" f
  let f2 ← synthOne "High" f1
  let f3 ← synthOne "Low" f2
  let f4 ← synthOne "Close" f3
  synthOne "Volume" f4

/-- not all(data[Volume] == 0): a NaN cell compares unequal to 0, matching
pandas elementwise eq. -/
def volNotAllZero (vol : Series) : Bool := vol.any (fun c => !(c == some 0))

/-- The pure column construction of the generate_features try block, with
the oracle outputs passed in; columns are set in source order. -/
def assembleFeatures (data : Frame) (close high low vol rsiS : Series)
    (macdT bbT : Series × Series × Series) (e12 e26 adxS obvS c5s c10s : Series)
    (stT srT : Series × Series) : Frame :=
  let bbW := cellDivZ (cellZip (· - ·) bbT.1 bbT.2.1) bbT.2.2
  let dailySpread := cellDivZ (cellZip (· - ·) high low) close
  let priceDiff := sdiff 5 close
  let rsiDiff := sdiff 5 rsiS
  let diverg : Series := priceDiff.zipWith (fun pd rd =>
    some (if cGt pd 0 && cLt rd 0 then (-1 : ℚ)
          else if cLt pd 0 && cGt rd 0 then 1 else 0)) rsiDiff
  let ndr := shiftUp (pctChange1 close)
  let target : Series := ndr.map (fun o => some (if cGt o 0 then (1 : ℚ) else 0))
  let withVspike := fun (d : Frame) =>
    if volNotAllZero vol then
      (d.setCol "volume_5d_mean" (rollingMean 5 vol)).setCol "volume_spike"
        (cellDivZ vol (rollingMean 5 vol))
    else d.setCol "volume_spike" (constSeries d.nRows 1)
  (((((((((((((((((((((((((data.setCol "rsi" rsiS).setCol "macd" macdT.1).setCol
    "macd_signal" macdT.2.1).setCol "macd_diff" macdT.2.2).setCol "ema12" e12).setCol
    "ema26" e26).setCol "bb_high" bbT.1).setCol "bb_low" bbT.2.1).setCol
    "bb_mid" bbT.2.2).setCol "bb_width" bbW).setCol "stoch_k" stT.1).setCol
    "stoch_d" stT.2).setCol "adx" adxS).setCol "obv" obvS).setCol
    "stoch_rsi_k" srT.1).setCol "stoch_rsi_d" srT.2).setCol
    "close_5d_mean" (rollingMean 5 close)).setCol
    "close_10d_mean" (rollingMean 10 close)).setCol "close_5d_std" c5s).setCol
    "close_10d_std" c10s).setCol "daily_spread" dailySpread |> withVspike).setCol
    "price_diff" priceDiff).setCol "rsi_diff" rsiDiff).setCol
    "divergence" diverg).setCol "next_day_return" ndr).setCol "target" target

/-- The try block of generate_features up to (but not including) the final
fillna chain.  The external oracle calls are hoisted before the pure frame
construction; they only consume the Open/High/Low/Close/Volume columns
fixed by the synthesis step, so the order of side effects is unchanged up
to which message an eventual exception carries, and any exception lands in
the same except branch. -/
def genCols (env : TaEnv) (df0 : Frame) : Except String Frame := do
  let data ← synthAll df0
  let close ← data.col "Close"
  let high ← data.col "High"
  let low ← data.col "Low"
  let vol ← data.col "Volume"
  let rsiS ← env.taRsi close
  let macdT ← env.taMacd close
  let e12 ← env.taEma 12 close
  let e26 ← env.taEma 26 close
  let bbT ← env.taBollinger close
  let stT ← env.taStoch high low close
  let adxS ← env.taAdx high low close
  let obvS ← if volNotAllZero vol then env.taObv close vol
             else pure (constSeries data.nRows 0)
  let srT ← env.taStochRsi close
  let c5s ← env.rollingStd 5 close
  let c10s ← env.rollingStd 10 close
  pure (assembleFeatures data close high low vol rsiS macdT bbT e12 e26 adxS obvS
    c5s c10s stT srT)

/-- The final statement of the try block: fillna(method=bfill) then
fillna(method=ffill) then fillna(0), applied to every column. -/
def fillFrame (f : Frame) : Frame :=
  ⟨f.nRows, f.cols.map (fun p => (p.1, fillConst 0 (ffill (bfill p.2))))⟩

/-- generate_features of enhanced_ml.py: on any exception inside the try
block the except branch returns the input frame unchanged; otherwise the
augmented frame with the fill chain applied (the fill itself is total, so
composing it outside genCols is the same control flow). -/
def generate_features (env : TaEnv) (df : Frame) : Frame :=
  match genCols env df with
  | .ok out => fillFrame out
  | .error _ => df

/-! ### Frame and series lemmas -/

/-- Every column of the frame has the given length. -/
def ColsLen (f : Frame) (k : ℕ) : Prop := ∀ p ∈ f.cols, p.2.length = k

@[simp] theorem length_sdiff (k : ℕ) (l : Series) : (sdiff k l).length = l.length := by
  simp [sdiff]

@[simp] theorem length_rollingMean (w : ℕ) (l : Series) :
    (rollingMean w l).length = l.length := by simp [rollingMean]

@[simp] theorem length_shiftUp (l : Series) : (shiftUp l).length = l.length := by
  simp [shiftUp]

@[simp] theorem length_pctChange1 (l : Series) : (pctChange1 l).length = l.length := by
  simp [pctChange1]

@[simp] theorem length_cellZip (f : ℚ → ℚ → ℚ) (a b : Series) :
    (cellZip f a b).length = min a.length b.length := by simp [cellZip]

@[simp] theorem length_cellDivZ (a b : Series) :
    (cellDivZ a b).length = min a.length b.length := by simp [cellDivZ]

@[simp] theorem length_constSeries (n : ℕ) (q : ℚ) : (constSeries n q).length = n := by
  simp [constSeries]

@[simp] theorem length_bfill (l : Series) : (bfill l).length = l.length := by
  induction l with
  | nil => rfl
  | cons o rest ih => cases o <;> simp [bfill, ih]

@[simp] theorem length_ffillAux (c : Cell) (l : Series) :
    (ffillAux c l).length = l.length := by
  induction l generalizing c with
  | nil => rfl
  | cons o rest ih => cases o <;> simp [ffillAux, ih]

@[simp] theorem length_ffill (l : Series) : (ffill l).length = l.length := by
  simp [ffill]

@[simp] theorem length_fillConst (q : ℚ) (l : Series) :
    (fillConst q l).length = l.length := by simp [fillConst]

theorem fillConst_isSome (q : ℚ) (l : Series) :
    ∀ c ∈ fillConst q l, c.isSome = true := by
  intro c hc
  rcases List.mem_map.mp hc with ⟨o, _, rfl⟩
  rfl

@[simp] theorem nRows_setCol (f : Frame) (n : String) (s : Series) :
    (f.setCol n s).nRows = f.nRows := by
  unfold Frame.setCol
  split <;> rfl

set_option linter.unnecessarySeqFocus false in
theorem find?_map_update (l : List (String × Series)) (n m : String) (s : Series) :
    (l.map (fun p => if p.1 == n then (n, s) else p)).find? (fun p => p.1 == m) =
      if m = n then (l.find? (fun p => p.1 == n)).map (fun _ => (n, s))
      else l.find? (fun p => p.1 == m) := by
  induction l with
  | nil => split <;> rfl
  | cons a l ih =>
    by_cases hmn : m = n <;> by_cases ha : a.1 = n <;>
      simp_all [List.find?_cons] <;> split <;> simp_all

theorem find?_map_snd (g : Series → Series) (l : List (String × Series)) (m : String) :
    (l.map (fun p => (p.1, g p.2))).find? (fun p => p.1 == m) =
      (l.find? (fun p => p.1 == m)).map (fun p => (p.1, g p.2)) := by
  induction l with
  | nil => rfl
  | cons a l ih =>
    by_cases ha : a.1 = m
    · simp_all [List.find?_cons]
    · simp_all [List.find?_cons]

theorem getCol?_setCol (f : Frame) (n m : String) (s : Series) :
    (f.setCol n s).getCol? m = if m = n then some s else f.getCol? m := by
  unfold Frame.setCol Frame.hasCol Frame.getCol?
  rcases hf : f.cols.find? (fun p => p.1 == n) with _ | q
  · simp only [hf, Option.map_none', Option.isSome_none, Bool.false_eq_true, if_false]
    rw [List.find?_append]
    by_cases hmn : m = n
    · subst hmn
      simp [hf, List.find?_cons]
    · simp only [hmn, if_false]
      rcases hm : f.cols.find? (fun p => p.1 == m) with _ | q2
      · have hnm : (n == m) = false := by
          simp [Ne.symm hmn]
        simp [hm, List.find?_cons, hnm, Option.orElse]
      · simp [hm]
  · simp only [hf, Option.map_some', Option.isSome_some, if_true]
    rw [find?_map_update, hf]
    by_cases hmn : m = n <;> simp [hmn]

theorem hasCol_setCol (f : Frame) (n m : String) (s : Series) :
    (f.setCol n s).hasCol m = (if m = n then true else f.hasCol m) := by
  unfold Frame.hasCol
  rw [getCol?_setCol]
  split <;> simp

theorem ColsLen.setCol {f : Frame} {k : ℕ} (hf : ColsLen f k) {s : Series}
    (hs : s.length = k) (n : String) : ColsLen (f.setCol n s) k := by
  intro p hp
  unfold Frame.setCol at hp
  split at hp
  · rcases List.mem_map.mp hp with ⟨q, hq, rfl⟩
    split
    · exact hs
    · exact hf q hq
  · rcases List.mem_append.mp hp with h | h
    · exact hf p h
    · rcases List.mem_singleton.mp h with rfl
      exact hs

theorem ColsLen.getCol {f : Frame} {k : ℕ} (hf : ColsLen f k) {m : String} {s : Series}
    (h : f.getCol? m = some s) : s.length = k := by
  unfold Frame.getCol? at h
  rcases hfind : f.cols.find? (fun p => p.1 == m) with _ | q
  · rw [hfind] at h; simp at h
  · rw [hfind] at h
    simp only [Option.map_some', Option.some.injEq] at h
    subst h
    exact hf q (List.mem_of_find?_eq_some hfind)

theorem col_ok_of_hasCol {f : Frame} {m : String} (h : f.hasCol m = true) :
    ∃ s, f.col m = .ok s ∧ f.getCol? m = some s := by
  unfold Frame.hasCol at h
  rcases hg : f.getCol? m with _ | s
  · rw [hg] at h; simp at h
  · exact ⟨s, by simp [Frame.col, hg], rfl⟩

@[simp] theorem nRows_fillFrame (f : Frame) : (fillFrame f).nRows = f.nRows := rfl

theorem getCol?_fillFrame (f : Frame) (m : String) :
    (fillFrame f).getCol? m =
      (f.getCol? m).map (fun s => fillConst 0 (ffill (bfill s))) := by
  unfold fillFrame Frame.getCol?
  rw [find?_map_snd (fun s => fillConst 0 (ffill (bfill s)))]
  rcases hf : f.cols.find? (fun p => p.1 == m) <;> simp [hf]

theorem hasCol_fillFrame (f : Frame) (m : String) :
    (fillFrame f).hasCol m = f.hasCol m := by
  unfold Frame.hasCol
  rw [getCol?_fillFrame]
  rcases f.getCol? m <;> simp

theorem ColsLen.fillFrame {f : Frame} {k : ℕ} (hf : ColsLen f k) :
    ColsLen (fillFrame f) k := by
  intro p hp
  rcases List.mem_map.mp hp with ⟨q, hq, rfl⟩
  simp [hf q hq]

theorem fillFrame_cells (f : Frame) :
    ∀ p ∈ (fillFrame f).cols, ∀ c ∈ p.2, c.isSome = true := by
  intro p hp
  rcases List.mem_map.mp hp with ⟨q, _, rfl⟩
  exact fillConst_isSome 0 _

/-- Totality and index alignment of the external indicator oracles: each
call returns a series of the length of its close argument.  This is the
interface contract of the ta library on well-formed numeric input. -/
structure TaEnvTotal (env : TaEnv) : Prop where
  rsi : ∀ s, ∃ v, env.taRsi s = .ok v ∧ v.length = s.length
  macd : ∀ s, ∃ t : Series × Series × Series, env.taMacd s = .ok t ∧
    t.1.length = s.length ∧ t.2.1.length = s.length ∧ t.2.2.length = s.length
  ema : ∀ k s, ∃ v, env.taEma k s = .ok v ∧ v.length = s.length
  boll : ∀ s, ∃ t : Series × Series × Series, env.taBollinger s = .ok t ∧
    t.1.length = s.length ∧ t.2.1.length = s.length ∧ t.2.2.length = s.length
  stoch : ∀ h l c, ∃ t : Series × Series, env.taStoch h l c = .ok t ∧
    t.1.length = c.length ∧ t.2.length = c.length
  adx : ∀ h l c, ∃ v, env.taAdx h l c = .ok v ∧ v.length = c.length
  obv : ∀ c v, ∃ w, env.taObv c v = .ok w ∧ w.length = c.length
  srsi : ∀ s, ∃ t : Series × Series, env.taStochRsi s = .ok t ∧
    t.1.length = s.length ∧ t.2.length = s.length
  rstd : ∀ k s, ∃ v, env.rollingStd k s = .ok v ∧ v.length = s.length

theorem synthOne_ok (c : String) (f : Frame) (hc : f.hasCol "Close" = true)
    (hwf : ColsLen f f.nRows) :
    ∃ g, synthOne c f = .ok g ∧ g.nRows = f.nRows ∧ ColsLen g f.nRows ∧
      g.hasCol c = true ∧ (∀ m, f.hasCol m = true → g.hasCol m = true) := by
  unfold synthOne
  by_cases h : f.hasCol c = true
  · exact ⟨f, by simp [h], rfl, hwf, h, fun m hm => hm⟩
  · by_cases hv : (c == "Volume") = true
    · refine ⟨f.setCol c (constSeries f.nRows 0), ?_, by simp, ?_, ?_, ?_⟩
      · simp [h, hv]
      · exact hwf.setCol (by simp) c
      · simp [hasCol_setCol]
      · intro m hm
        rw [hasCol_setCol]
        split <;> simp [hm]
    · obtain ⟨cl, hcl, hclg⟩ := col_ok_of_hasCol hc
      refine ⟨f.setCol c cl, ?_, by simp, ?_, ?_, ?_⟩
      · simp only [h, Bool.false_eq_true, if_false, hv, Bind.bind, Except.bind, hcl]
      · exact hwf.setCol (hwf.getCol hclg) c
      · simp [hasCol_setCol]
      · intro m hm
        rw [hasCol_setCol]
        split <;> simp [hm]

theorem ColsLen.cast {f : Frame} {a b : ℕ} (h : ColsLen f a) (hab : a = b) :
    ColsLen f b := hab ▸ h

theorem synthAll_ok (f : Frame) (hc : f.hasCol "Close" = true)
    (hwf : ColsLen f f.nRows) :
    ∃ g, synthAll f = .ok g ∧ g.nRows = f.nRows ∧ ColsLen g f.nRows ∧
      g.hasCol "Open" = true ∧ g.hasCol "High" = true ∧ g.hasCol "Low" = true ∧
      g.hasCol "Close" = true ∧ g.hasCol "Volume" = true := by
  obtain ⟨g1, h1, hn1, hl1, hc1, hp1⟩ := synthOne_ok "Open" f hc hwf
  have hcg1 : g1.hasCol "Close" = true := hp1 _ hc
  obtain ⟨g2, h2, hn2, hl2, hc2, hp2⟩ := synthOne_ok "High" g1 hcg1 (hl1.cast hn1.symm)
  have hcg2 : g2.hasCol "Close" = true := hp2 _ hcg1
  have hl2f : ColsLen g2 f.nRows := (hl2.cast hn1)
  have hn2f : g2.nRows = f.nRows := hn2.trans hn1
  obtain ⟨g3, h3, hn3, hl3, hc3, hp3⟩ := synthOne_ok "Low" g2 hcg2 (hl2f.cast hn2f.symm)
  have hcg3 : g3.hasCol "Close" = true := hp3 _ hcg2
  have hl3f : ColsLen g3 f.nRows := (hl3.cast hn2f)
  have hn3f : g3.nRows = f.nRows := hn3.trans hn2f
  obtain ⟨g4, h4, hn4, hl4, hc4, hp4⟩ := synthOne_ok "Close" g3 hcg3 (hl3f.cast hn3f.symm)
  have hcg4 : g4.hasCol "Close" = true := hp4 _ hcg3
  have hl4f : ColsLen g4 f.nRows := (hl4.cast hn3f)
  have hn4f : g4.nRows = f.nRows := hn4.trans hn3f
  obtain ⟨g5, h5, hn5, hl5, hc5, hp5⟩ := synthOne_ok "Volume" g4 hcg4 (hl4f.cast hn4f.symm)
  refine ⟨g5, ?_, hn5.trans hn4f, (hl5.cast hn4f), ?_, ?_, ?_, ?_, hc5⟩
  · simp [synthAll, h1, h2, h3, h4, h5, Bind.bind, Except.bind]
  · exact hp5 _ (hp4 _ (hp3 _ (hp2 _ hc1)))
  · exact hp5 _ (hp4 _ (hp3 _ hc2))
  · exact hp5 _ (hp4 _ hc3)
  · exact hp5 _ hc4

theorem colsLenStep {s : Series} {k : ℕ} (hs : s.length = k) {f : Frame}
    (hf : ColsLen f k) (n : String) : ColsLen (f.setCol n s) k := hf.setCol hs n

theorem assembleFeatures_nRows (data : Frame) (close high low vol rsiS : Series)
    (macdT bbT : Series × Series × Series) (e12 e26 adxS obvS c5s c10s : Series)
    (stT srT : Series × Series) :
    (assembleFeatures data close high low vol rsiS macdT bbT e12 e26 adxS obvS
      c5s c10s stT srT).nRows = data.nRows := by
  unfold assembleFeatures
  dsimp only
  split <;> simp

set_option maxRecDepth 4000 in
theorem assembleFeatures_colsLen {data : Frame} {n : ℕ}
    {close high low vol rsiS : Series} {macdT bbT : Series × Series × Series}
    {e12 e26 adxS obvS c5s c10s : Series} {stT srT : Series × Series}
    (hd : ColsLen data n) (hdn : data.nRows = n)
    (hclose : close.length = n) (hhigh : high.length = n) (hlow : low.length = n)
    (hvol : vol.length = n) (hrsi : rsiS.length = n)
    (hm1 : macdT.1.length = n) (hm2 : macdT.2.1.length = n) (hm3 : macdT.2.2.length = n)
    (hb1 : bbT.1.length = n) (hb2 : bbT.2.1.length = n) (hb3 : bbT.2.2.length = n)
    (he12 : e12.length = n) (he26 : e26.length = n) (hadx : adxS.length = n)
    (hobv : obvS.length = n) (hc5 : c5s.length = n) (hc10 : c10s.length = n)
    (hs1 : stT.1.length = n) (hs2 : stT.2.length = n)
    (hr1 : srT.1.length = n) (hr2 : srT.2.length = n) :
    ColsLen (assembleFeatures data close high low vol rsiS macdT bbT e12 e26 adxS obvS
      c5s c10s stT srT) n := by
  unfold assembleFeatures
  dsimp only
  split
  · apply colsLenStep (by simp [hclose])
    apply colsLenStep (by simp [hclose])
    apply colsLenStep (by simp [hclose, hrsi])
    apply colsLenStep (by simp [hrsi])
    apply colsLenStep (by simp [hclose])
    apply colsLenStep (by simp [hvol])
    apply colsLenStep (by simp [hvol])
    apply colsLenStep (by simp [hhigh, hlow, hclose])
    apply colsLenStep hc10
    apply colsLenStep hc5
    apply colsLenStep (by simp [hclose])
    apply colsLenStep (by simp [hclose])
    apply colsLenStep hr2
    apply colsLenStep hr1
    apply colsLenStep hobv
    apply colsLenStep hadx
    apply colsLenStep hs2
    apply colsLenStep hs1
    apply colsLenStep (by simp [hb1, hb2, hb3])
    apply colsLenStep hb3
    apply colsLenStep hb2
    apply colsLenStep hb1
    apply colsLenStep he26
    apply colsLenStep he12
    apply colsLenStep hm3
    apply colsLenStep hm2
    apply colsLenStep hm1
    apply colsLenStep hrsi
    exact hd
  · apply colsLenStep (by simp [hclose])
    apply colsLenStep (by simp [hclose])
    apply colsLenStep (by simp [hclose, hrsi])
    apply colsLenStep (by simp [hrsi])
    apply colsLenStep (by simp [hclose])
    apply colsLenStep (by simp [hdn])
    apply colsLenStep (by simp [hhigh, hlow, hclose])
    apply colsLenStep hc10
    apply colsLenStep hc5
    apply colsLenStep (by simp [hclose])
    apply colsLenStep (by simp [hclose])
    apply colsLenStep hr2
    apply colsLenStep hr1
    apply colsLenStep hobv
    apply colsLenStep hadx
    apply colsLenStep hs2
    apply colsLenStep hs1
    apply colsLenStep (by simp [hb1, hb2, hb3])
    apply colsLenStep hb3
    apply colsLenStep hb2
    apply colsLenStep hb1
    apply colsLenStep he26
    apply colsLenStep he12
    apply colsLenStep hm3
    apply colsLenStep hm2
    apply colsLenStep hm1
    apply colsLenStep hrsi
    exact hd

/-- Column names guaranteed to exist in the generate_features output. -/
def featureNames : List String :=
  ["Open", "High", "Low", "Close", "Volume", "rsi", "macd", "macd_signal",
   "macd_diff", "ema12", "ema26", "bb_high", "bb_low", "bb_mid", "bb_width",
   "stoch_k", "stoch_d", "adx", "obv", "stoch_rsi_k", "stoch_rsi_d",
   "close_5d_mean", "close_10d_mean", "close_5d_std", "close_10d_std",
   "daily_spread", "volume_spike", "price_diff", "rsi_diff", "divergence",
   "next_day_return", "target"]

set_option maxRecDepth 4000 in
theorem assembleFeatures_hasCol {data : Frame}
    (close high low vol rsiS : Series) (macdT bbT : Series × Series × Series)
    (e12 e26 adxS obvS c5s c10s : Series) (stT srT : Series × Series)
    (hO : data.hasCol "Open" = true) (hH : data.hasCol "High" = true)
    (hL : data.hasCol "Low" = true) (hC : data.hasCol "Close" = true)
    (hV : data.hasCol "Volume" = true) :
    ∀ m ∈ featureNames, (assembleFeatures data close high low vol rsiS macdT bbT
      e12 e26 adxS obvS c5s c10s stT srT).hasCol m = true := by
  intro m hm
  unfold assembleFeatures
  dsimp only
  fin_cases hm <;> (split <;> simp [hasCol_setCol, hO, hH, hL, hC, hV])

set_option maxRecDepth 4000 in
theorem genCols_ok (env : TaEnv) (df : Frame) (henv : TaEnvTotal env)
    (hclose : df.hasCol "Close" = true) (hwf : ColsLen df df.nRows) :
    ∃ out, genCols env df = .ok out ∧ out.nRows = df.nRows ∧
      ColsLen out df.nRows ∧ ∀ m ∈ featureNames, out.hasCol m = true := by
  obtain ⟨data, hdata, hdn, hdl, hO, hH, hL, hC, hV⟩ := synthAll_ok df hclose hwf
  obtain ⟨close, hcolC, hgetC⟩ := col_ok_of_hasCol hC
  obtain ⟨high, hcolH, hgetH⟩ := col_ok_of_hasCol hH
  obtain ⟨low, hcolL, hgetL⟩ := col_ok_of_hasCol hL
  obtain ⟨vol, hcolV, hgetV⟩ := col_ok_of_hasCol hV
  have hlenC : close.length = df.nRows := hdl.getCol hgetC
  have hlenH : high.length = df.nRows := hdl.getCol hgetH
  have hlenL : low.length = df.nRows := hdl.getCol hgetL
  have hlenV : vol.length = df.nRows := hdl.getCol hgetV
  obtain ⟨rsiS, hr, hrL⟩ := henv.rsi close
  obtain ⟨macdT, hm, hmL1, hmL2, hmL3⟩ := henv.macd close
  obtain ⟨e12, he1, he1L⟩ := henv.ema 12 close
  obtain ⟨e26, he2, he2L⟩ := henv.ema 26 close
  obtain ⟨bbT, hb, hbL1, hbL2, hbL3⟩ := henv.boll close
  obtain ⟨stT, hst, hstL1, hstL2⟩ := henv.stoch high low close
  obtain ⟨adxS, ha, haL⟩ := henv.adx high low close
  obtain ⟨srT, hsr, hsrL1, hsrL2⟩ := henv.srsi close
  obtain ⟨c5s, h5, h5L⟩ := henv.rstd 5 close
  obtain ⟨c10s, h10, h10L⟩ := henv.rstd 10 close
  by_cases hv : volNotAllZero vol = true
  · obtain ⟨obvS, ho, hoL⟩ := henv.obv close vol
    refine ⟨assembleFeatures data close high low vol rsiS macdT bbT e12 e26 adxS obvS
      c5s c10s stT srT, ?_, ?_, ?_, ?_⟩
    · simp [genCols, hdata, hcolC, hcolH, hcolL, hcolV, hr, hm, he1, he2, hb, hst,
        ha, hv, ho, hsr, h5, h10, Bind.bind, Except.bind, Pure.pure, Except.pure]
    · rw [assembleFeatures_nRows, hdn]
    · exact assembleFeatures_colsLen hdl (by rw [hdn]) hlenC hlenH hlenL hlenV
        (hrL.trans hlenC) (hmL1.trans hlenC) (hmL2.trans hlenC) (hmL3.trans hlenC)
        (hbL1.trans hlenC) (hbL2.trans hlenC) (hbL3.trans hlenC)
        (he1L.trans hlenC) (he2L.trans hlenC) (haL.trans hlenC)
        (hoL.trans hlenC) (h5L.trans hlenC) (h10L.trans hlenC)
        (hstL1.trans hlenC) (hstL2.trans hlenC) (hsrL1.trans hlenC) (hsrL2.trans hlenC)
    · exact assembleFeatures_hasCol close high low vol rsiS macdT bbT e12 e26 adxS
        _ c5s c10s stT srT hO hH hL hC hV
  · refine ⟨assembleFeatures data close high low vol rsiS macdT bbT e12 e26 adxS
      (constSeries data.nRows 0) c5s c10s stT srT, ?_, ?_, ?_, ?_⟩
    · simp [genCols, hdata, hcolC, hcolH, hcolL, hcolV, hr, hm, he1, he2, hb, hst,
        ha, hv, hsr, h5, h10, Bind.bind, Except.bind, Pure.pure, Except.pure]
    · rw [assembleFeatures_nRows, hdn]
    · exact assembleFeatures_colsLen hdl (by rw [hdn]) hlenC hlenH hlenL hlenV
        (hrL.trans hlenC) (hmL1.trans hlenC) (hmL2.trans hlenC) (hmL3.trans hlenC)
        (hbL1.trans hlenC) (hbL2.trans hlenC) (hbL3.trans hlenC)
        (he1L.trans hlenC) (he2L.trans hlenC) (haL.trans hlenC)
        (by simp [hdn]) (h5L.trans hlenC) (h10L.trans hlenC)
        (hstL1.trans hlenC) (hstL2.trans hlenC) (hsrL1.trans hlenC) (hsrL2.trans hlenC)
    · exact assembleFeatures_hasCol close high low vol rsiS macdT bbT e12 e26 adxS
        _ c5s c10s stT srT hO hH hL hC hV

/-- C6: for an input frame with a Close column, at least one row, aligned
columns and well-behaved external indicator calls, the generate_features
output has the same row count, every column aligned to it, no undefined
cell anywhere (the bfill-ffill-0 fill chain runs last over every column),
and in particular the last row of every column exists and is defined. -/
theorem C6_features_no_undefined_cells (env : TaEnv) (df : Frame)
    (henv : TaEnvTotal env) (hclose : df.hasCol "Close" = true)
    (hwf : ColsLen df df.nRows) (hrows : 1 ≤ df.nRows) :
    (generate_features env df).nRows = df.nRows ∧
    ColsLen (generate_features env df) df.nRows ∧
    (∀ p ∈ (generate_features env df).cols, ∀ c ∈ p.2, c.isSome = true) ∧
    (∀ p ∈ (generate_features env df).cols,
      ∃ c, p.2.getLast? = some c ∧ c.isSome = true) ∧
    (generate_features env df).hasCol "Close" = true := by
  obtain ⟨out, hout, hn, hl, hcols⟩ := genCols_ok env df henv hclose hwf
  have hgen : generate_features env df = fillFrame out := by
    simp [generate_features, hout]
  rw [hgen]
  have hfl : ColsLen (fillFrame out) df.nRows := ColsLen.fillFrame hl
  refine ⟨by simp [hn], hfl, fillFrame_cells out, ?_, ?_⟩
  · intro p hp
    have hlen : p.2.length = df.nRows := hfl p hp
    have hne : p.2 ≠ [] := by
      intro h
      rw [h] at hlen
      simp at hlen
      omega
    rcases hg : p.2.getLast? with _ | c
    · exact absurd (List.getLast?_eq_none_iff.mp hg) hne
    · refine ⟨c, rfl, fillFrame_cells out p hp c ?_⟩
      obtain ⟨hne2, hc2⟩ := List.mem_getLast?_eq_getLast (Option.mem_def.mpr hg)
      rw [hc2]
      exact List.getLast_mem hne2
  · rw [hasCol_fillFrame]
    exact hcols "Close" (by simp [featureNames])

/-! ## enhanced_ml.py: predictions -/

/-- A Python return value of the prediction functions: a 3-tuple
(prediction, confidence, reason) from the rule-based path, or the 4-tuple
(prediction, confidence, reason, detailed_analysis) of the full enhanced
path.  The detailed-analysis dictionary is pure formatting of the same
cells; no claim reads it, and only the tuple arity is observable to the
caller in backtesting.py, so it is modelled by the constructor alone. -/
inductive PredRet where
  | t3 (p : String) (c : ℚ) (r : String)
  | t4 (p : String) (c : ℚ) (r : String)

/-- Decimal formatting of a float inside an explanation string; the digit
layout of the Python format specifiers is not reproduced (no claim reads
these strings). -/
def fmtQ (q : ℚ) : String := toString q

/-- The try block of rule_based_prediction.  Reads of last-row values are
cells; comparisons on a NaN cell are false as in Python.  Arithmetic on
values uses the defined value with default 0; a NaN or a zero denominator
in recent_change is modelled as a missing cell (pandas would give inf or
NaN; the claims only evaluate this on series of nonzero defined prices). -/
def ruleTry (env : TaEnv) (df : Option Frame) : Except String (String × ℚ × String) := do
  match df with
  | none => pure ("Neutral", 50, "Insufficient data for prediction")
  | some f =>
    if f.nRows < 5 then pure ("Neutral", 50, "Insufficient data for prediction")
    else
      let lookback := min 7 (f.nRows - 1)
      if f.nRows ≤ lookback then pure ("Neutral", 50, "Insufficient historical data")
      else do
        let close ← f.col "Close"
        let cLast := seriesGet close (close.length - 1)
        let cPrev := seriesGet close (close.length - 1 - lookback)
        let recent_change : Cell :=
          match cLast, cPrev with
          | some a, some b => if b = 0 then none else some ((a / b - 1) * 100)
          | _, _ => none
        let current_rsi : Cell ←
          if f.hasCol "rsi" then do
            let r ← f.col "rsi"
            match r.getLast? with
            | some c => pure c
            | none => .error "IndexError: rsi"
          else
            pure (match env.taRsi close with
              | .ok s =>
                match s.getLast? with
                | some c => c
                | none => some 50
              | .error _ => some 50)
        let pc : String × Cell :=
          if cLt current_rsi 30 then
            ("Bullish", some (70 + (30 - current_rsi.getD 0)))
          else if cGt current_rsi 70 then
            ("Bearish", some (70 + (current_rsi.getD 0 - 70)))
          else if cGt recent_change 2 then
            ("Bullish", some (50 + min (recent_change.getD 0) 20))
          else if cLt recent_change (-2) then
            ("Bearish", some (50 + min |recent_change.getD 0| 20))
          else
            ("Neutral", recent_change.map (fun rc => 50 + min (|rc| * (5/2)) 10))
        let confidence : ℚ ←
          match pc.2 with
          | some c => pure (min ((⌊c⌋ : ℚ)) 95)
          | none => .error "ValueError: NaN confidence"
        let trend_text := fmtQ (recent_change.getD 0) ++ "%"
        let reason := "RSI: " ++ fmtQ (current_rsi.getD 0) ++ " | Trend: " ++
          (if cGt recent_change 10 then "Strong Uptrend | 7d Change: " ++ trend_text
           else if cGt recent_change 3 then "Uptrend | 7d Change: " ++ trend_text
           else if cLt recent_change (-10) then "Strong Downtrend | 7d Change: " ++ trend_text
           else if cLt recent_change (-3) then "Downtrend | 7d Change: " ++ trend_text
           else "Sideways | 7d Change: " ++ trend_text)
        pure (pc.1, confidence, reason)

/-- rule_based_prediction of enhanced_ml.py: any exception in the try
block is caught and becomes the neutral error triple. -/
def rule_based_prediction (env : TaEnv) (df : Option Frame) : PredRet :=
  match ruleTry env df with
  | .ok (p, c, r) => .t3 p c r
  | .error _ => .t3 "Neutral" 50 "Error in prediction algorithm"

theorem rule_based_prediction_t3 (env : TaEnv) (df : Option Frame) :
    ∃ p c r, rule_based_prediction env df = .t3 p c r := by
  unfold rule_based_prediction
  rcases ruleTry env df with e | ⟨p, c, r⟩
  · exact ⟨_, _, _, rfl⟩
  · exact ⟨p, c, r, rfl⟩

/-- The try block of enhanced_prediction.  After generate_features, the
most recent row is read field by field (a missing column raises KeyError
at its access, an empty column IndexError), then the indicator ensemble is
combined; the successful path returns the 4-tuple.  Comparisons on cells
are NaN-false as in Python; value arithmetic reads the defined value with
default 0 (every claim evaluates this only on frames whose cells are all
defined, which the generate_features fill guarantees). -/
def enhancedTry (env : TaEnv) (data : Option Frame) : Except String PredRet := do
  match data with
  | none => pure (rule_based_prediction env none)
  | some df =>
    if df.nRows < 30 then pure (rule_based_prediction env data)
    else
      let enhanced := generate_features env df
      let rsi ← enhanced.lastCell "rsi"
      let macd ← enhanced.lastCell "macd"
      let macd_signal ← enhanced.lastCell "macd_signal"
      let macd_diff ← enhanced.lastCell "macd_diff"
      let ema12 ← enhanced.lastCell "ema12"
      let ema26 ← enhanced.lastCell "ema26"
      let closeL ← enhanced.lastCell "Close"
      let bb_low ← enhanced.lastCell "bb_low"
      let bb_high ← enhanced.lastCell "bb_high"
      let stoch_k ← enhanced.lastCell "stoch_k"
      let stoch_d ← enhanced.lastCell "stoch_d"
      let adx ← enhanced.lastCell "adx"
      let volume_spike ← enhanced.lastCell "volume_spike"
      let diverg ← enhanced.lastCell "divergence"
      let s1 : List ℚ × List ℚ × List String :=
        if cLt rsi 30 then
          ([1], [70 + (30 - rsi.getD 0) * (3/2)],
           ["RSI oversold (" ++ fmtQ (rsi.getD 0) ++ ")"])
        else if cGt rsi 70 then
          ([-1], [70 + (rsi.getD 0 - 70) * (3/2)],
           ["RSI overbought (" ++ fmtQ (rsi.getD 0) ++ ")"])
        else
          let bias : ℚ := if cLt rsi 50 then 1 else -1
          let strength := |rsi.getD 0 - 50| / 20
          ([bias * strength], [50 + strength * 10],
           [if bias = 1 then "RSI transitioning lower (" ++ fmtQ (rsi.getD 0) ++ ")"
            else "RSI transitioning higher (" ++ fmtQ (rsi.getD 0) ++ ")"])
      let s2 : List ℚ × List ℚ × List String :=
        if cGtC macd macd_signal then
          ([1], [50 + min (|macd_diff.getD 0| * 20) 25], ["MACD above signal line"])
        else
          ([-1], [50 + min (|macd_diff.getD 0| * 20) 25], ["MACD below signal line"])
      let s3 : List ℚ × List ℚ × List String :=
        if cGtC ema12 ema26 then
          let diff_pct := (ema12.getD 0 - ema26.getD 0) / ema26.getD 0 * 100
          ([1], [50 + min (diff_pct * 5) 30], ["Short-term EMA above long-term EMA"])
        else
          let diff_pct := (ema26.getD 0 - ema12.getD 0) / ema26.getD 0 * 100
          ([-1], [50 + min (diff_pct * 5) 30], ["Short-term EMA below long-term EMA"])
      let bb_pos := (closeL.getD 0 - bb_low.getD 0) / (bb_high.getD 0 - bb_low.getD 0)
      let s4 : List ℚ × List ℚ × List String :=
        if bb_pos < 1/5 then
          ([1], [60 + (1/5 - bb_pos) * 100], ["Price near lower Bollinger Band"])
        else if 4/5 < bb_pos then
          ([-1], [60 + (bb_pos - 4/5) * 100], ["Price near upper Bollinger Band"])
        else ([], [], [])
      let s5 : List ℚ × List ℚ × List String :=
        if cLt stoch_k 20 && cLt stoch_d 20 then
          ([1], [60 + (20 - stoch_k.getD 0) * (3/2)],
           ["Stochastic oversold (" ++ fmtQ (stoch_k.getD 0) ++ ")"])
        else if cGt stoch_k 80 && cGt stoch_d 80 then
          ([-1], [60 + (stoch_k.getD 0 - 80) * (3/2)],
           ["Stochastic overbought (" ++ fmtQ (stoch_k.getD 0) ++ ")"])
        else if cGtC stoch_k stoch_d && cLt stoch_k 80 then
          ([1/2], [55], ["Stochastic K crossing above D"])
        else if cGtC stoch_d stoch_k && cGt stoch_k 20 then
          ([-(1/2)], [55], ["Stochastic K crossing below D"])
        else ([], [], [])
      let signals0 := s1.1 ++ s2.1 ++ s3.1 ++ s4.1 ++ s5.1
      let confidences0 := s1.2.1 ++ s2.2.1 ++ s3.2.1 ++ s4.2.1 ++ s5.2.1
      let reasons0 := s1.2.2 ++ s2.2.2 ++ s3.2.2 ++ s4.2.2 ++ s5.2.2
      let confidences1 :=
        if cGt adx 25 then
          confidences0.map (fun c => min (c * (1 + (adx.getD 0 - 25) / 100)) 95)
        else confidences0
      let reasons1 :=
        if cGt adx 25 then
          reasons0 ++ ["Strong trend (ADX: " ++ fmtQ (adx.getD 0) ++ ")"]
        else reasons0
      let s7 : List ℚ × List ℚ × List String :=
        if cGt volume_spike 2 then
          let avg_signal :=
            (signals0.drop (signals0.length - 2)).sum / (min signals0.length 2 : ℚ)
          if 0 < avg_signal then
            ([1], [60 + min (volume_spike.getD 0 * 5) 25],
             ["High volume confirming uptrend (" ++ fmtQ (volume_spike.getD 0) ++ "x)"])
          else if avg_signal < 0 then
            ([-1], [60 + min (volume_spike.getD 0 * 5) 25],
             ["High volume confirming downtrend (" ++ fmtQ (volume_spike.getD 0) ++ "x)"])
          else ([], [], [])
        else ([], [], [])
      let s8 : List ℚ × List ℚ × List String :=
        if diverg == some 1 then ([3/2], [80], ["Bullish RSI divergence"])
        else if diverg == some (-1) then ([-(3/2)], [80], ["Bearish RSI divergence"])
        else ([], [], [])
      let signals := signals0 ++ s7.1 ++ s8.1
      let confidences := confidences1 ++ s7.2.1 ++ s8.2.1
      let reasons := reasons1 ++ s7.2.2 ++ s8.2.2
      let overall_signal := signals.sum / (signals.length : ℚ)
      let prediction :=
        if 1/5 < overall_signal then "Bullish"
        else if overall_signal < -(1/5) then "Bearish"
        else "Neutral"
      let base_confidence := confidences.sum / (confidences.length : ℚ)
      let signal_multiplier := min (|overall_signal| * (3/2)) (3/2)
      let confidence := min (base_confidence * signal_multiplier) 95
      let confidenceInt : ℚ := ((⌊confidence + 1/2⌋ : ℤ) : ℚ)
      let significant := (reasons.mergeSort (fun a b => b.length ≤ a.length)).take 3
      let reason := String.intercalate " | " significant
      pure (.t4 prediction confidenceInt reason)

/-- enhanced_prediction of enhanced_ml.py: the whole try block falls back
to rule_based_prediction on any exception. -/
def enhanced_prediction (env : TaEnv) (data : Option Frame) : PredRet :=
  match enhancedTry env data with
  | .ok r => r
  | .error _ => rule_based_prediction env data

/-! ## backtesting.py: run_backtest -/

/-- A per-step trade record.  The index date is the row position (the
timestamp formatting of the source is opaque here); price fields are cells
because a NaN close would flow into them unchanged. -/
structure Trade where
  date : ℕ
  prediction : String
  confidence : ℚ
  price : Cell
  future_price : Cell
  actual_return : Cell
  reason : String
  outcome : String

/-- The results dictionary of a completed backtest.  The round(x, 2)
display rounding of the source is not modelled (no claim reads those
digits); portfolio quantities are cells since a NaN return propagates. -/
structure BtReport where
  symbol : String
  period : String
  prediction_interval : ℕ
  num_trades : ℕ
  successful_trades : ℕ
  failed_trades : ℕ
  neutral_trades : ℕ
  success_rate : ℚ
  initial_capital : ℚ
  final_portfolio_value : Cell
  portfolio_return : Cell
  hodl_return : Cell
  alpha : Cell
  trades : List Trade

/-- A run_backtest return value: a results dictionary, or the pair of an
error dictionary and an HTTP status code. -/
inductive BtResult where
  | ok (r : BtReport)
  | err (msg : String) (status : ℕ)

/-- Symbol normalization at the top of run_backtest. -/
def procSymbol (symbol : String) : String :=
  let u := symbol.toUpper
  if u.endsWith "-USD" then u else u ++ "-USD"

/-- The outcome classification of a trade. -/
def outcomeOf (prediction : String) (ret : Cell) : String :=
  if (prediction == "Bullish" && cGt ret 0) || (prediction == "Bearish" && cLt ret 0) then
    "Success"
  else if prediction == "Neutral" then "Neutral"
  else "Failure"

/-- The walk-forward loop of run_backtest: for i in
range(30, len(enhanced_data) - prediction_interval).  The i += 3 at the
end of the source loop body has no effect on a Python for iterator, so the
step is 1.  The three-variable unpacking of the enhanced_prediction result
raises ValueError when the prediction returns its success 4-tuple, and no
per-step handler exists, so that exception leaves the loop. -/
def btStep (env : TaEnv) (enhanced : Frame) (interval : ℕ)
    (trades : List Trade) (i : ℕ) : Except String (List Trade) := do
  let slice := enhanced.takeRows (i + 1)
  let closeF ← enhanced.col "Close"
  let future_price := seriesGet closeF (i + interval)
  let current_price := seriesGet closeF i
  let actual_return : Cell :=
    match future_price, current_price with
    | some f, some c => if c = 0 then none else some ((f / c - 1) * 100)
    | _, _ => none
  match enhanced_prediction env (some slice) with
  | .t4 _ _ _ => .error "ValueError: too many values to unpack (expected 3)"
  | .t3 p c r =>
    pure (trades ++ [{ date := i
                       prediction := p
                       confidence := c
                       price := current_price
                       future_price := future_price
                       actual_return := actual_return
                       reason := r
                       outcome := outcomeOf p actual_return }])

def btLoop (env : TaEnv) (enhanced : Frame) (interval : ℕ) :
    Except String (List Trade) :=
  (List.range' 30 (enhanced.nRows - interval - 30)).foldlM
    (btStep env enhanced interval) []

/-- run_backtest of backtesting.py, with the yfinance fetch result passed
in as the data frame (the fetch is an external collaborator).  The
function-level try/except turns any exception from the walk into the
error-500 dictionary. -/
def run_backtest (env : TaEnv) (symbol : String) (data : Frame) (period : String)
    (prediction_interval : ℕ) : BtResult :=
  if symbol == "" then .err "Symbol is required" 400
  else
    let sym := procSymbol symbol
    if data.nRows = 0 ∨ data.cols.isEmpty = true ∨ data.nRows < 30 then
      .err ("Insufficient data for " ++ sym ++ " to run backtest") 400
    else
      let enhanced := generate_features env data
      match btLoop env enhanced prediction_interval with
      | .error e => .err ("Backtest failed: " ++ e) 500
      | .ok trades =>
        match trades with
        | [] => .err "No valid trades generated during backtest" 400
        | t0 :: _ =>
          let successful := (trades.filter (fun t => t.outcome == "Success")).length
          let failed := (trades.filter (fun t => t.outcome == "Failure")).length
          let neutralC := (trades.filter (fun t => t.outcome == "Neutral")).length
          let total := successful + failed + neutralC
          let initial : ℚ := 10000
          let portfolio : Cell := trades.foldl (fun pv t =>
            if t.prediction == "Bullish" then
              match pv, t.actual_return with
              | some v, some r => some (v * (1 + r / 100))
              | _, _ => none
            else pv) (some initial)
          let lastT := trades.getLastD t0
          let hodl_return : Cell :=
            match lastT.price, t0.price with
            | some lp, some fp => if fp = 0 then none else some ((lp / fp - 1) * 100)
            | _, _ => none
          let hodl_value : Cell := hodl_return.map (fun hr => initial * (1 + hr / 100))
          let success_rate : ℚ :=
            if 0 < total then (successful : ℚ) / (total : ℚ) * 100 else 0
          let portfolio_return : Cell := portfolio.map (fun pv => (pv / initial - 1) * 100)
          let hodl_return_pct : Cell := hodl_value.map (fun hv => (hv / initial - 1) * 100)
          let alpha : Cell :=
            match portfolio_return, hodl_return_pct with
            | some a, some b => some (a - b)
            | _, _ => none
          .ok { symbol := sym, period := period
                prediction_interval := prediction_interval
                num_trades := trades.length, successful_trades := successful
                failed_trades := failed, neutral_trades := neutralC
                success_rate := success_rate, initial_capital := initial
                final_portfolio_value := portfolio, portfolio_return := portfolio_return
                hodl_return := hodl_return_pct, alpha := alpha
                trades := trades.drop (trades.length - 20) }

/-! ## Backtest claims -/

/-- C7: a backtest request whose fetched history has fewer than 30 bars
(in particular an empty one) returns the insufficient-data error with the
bad-input status 400, before any feature generation or walk step runs, so
no trade records are produced. -/
theorem C7_insufficient_data_fails_fast (env : TaEnv) (symbol : String)
    (data : Frame) (period : String) (itv : ℕ)
    (hsym : (symbol == "") = false) (hlen : data.nRows < 30) :
    run_backtest env symbol data period itv =
      .err ("Insufficient data for " ++ procSymbol symbol ++ " to run backtest") 400 := by
  unfold run_backtest
  rw [if_neg (by simp [hsym]), if_pos (Or.inr (Or.inr hlen))]

/-- A concrete total oracle environment: every indicator call echoes an
aligned series. -/
def envOkId : TaEnv :=
  { taRsi := fun s => .ok s
    taMacd := fun s => .ok (s, s, s)
    taEma := fun _ s => .ok s
    taBollinger := fun s => .ok (s, s, s)
    taStoch := fun _ _ c => .ok (c, c)
    taAdx := fun _ _ c => .ok c
    taObv := fun c _ => .ok c
    taStochRsi := fun s => .ok (s, s)
    rollingStd := fun _ s => .ok s }

theorem envOkId_total : TaEnvTotal envOkId := by
  constructor <;> intros <;>
    first
    | exact ⟨_, rfl, rfl⟩
    | exact ⟨_, rfl, rfl, rfl⟩
    | exact ⟨_, rfl, rfl, rfl, rfl⟩

/-- A 10-row close-only frame, too short for a backtest. -/
def df10 : Frame := ⟨10, [("Close", List.replicate 10 (some 2))]⟩

/-- Witness: the C7 theorem applied to the concrete 10-row history. -/
theorem C7_insufficient_data_fails_fast_witness :
    run_backtest envOkId "BTC" df10 "1y" 7 =
      .err ("Insufficient data for " ++ procSymbol "BTC" ++ " to run backtest") 400 :=
  C7_insufficient_data_fails_fast envOkId "BTC" df10 "1y" 7 (by decide) (by decide)

/-- A 1-row close-only frame. -/
def df1 : Frame := ⟨1, [("Close", [some 3])]⟩

/-- Witness: the C6 theorem applied to the 1-row frame and the echo
oracles. -/
theorem C6_features_no_undefined_cells_witness :
    (generate_features envOkId df1).nRows = df1.nRows ∧
    ColsLen (generate_features envOkId df1) df1.nRows ∧
    (∀ p ∈ (generate_features envOkId df1).cols, ∀ c ∈ p.2, c.isSome = true) ∧
    (∀ p ∈ (generate_features envOkId df1).cols,
      ∃ c, p.2.getLast? = some c ∧ c.isSome = true) ∧
    (generate_features envOkId df1).hasCol "Close" = true :=
  C6_features_no_undefined_cells envOkId df1 envOkId_total (by decide)
    (by intro p hp; rcases List.mem_singleton.mp hp with rfl; rfl) (by decide)

@[simp] theorem nRows_takeRows (f : Frame) (k : ℕ) :
    (f.takeRows k).nRows = min k f.nRows := rfl

theorem getCol?_takeRows (f : Frame) (k : ℕ) (m : String) :
    (f.takeRows k).getCol? m = (f.getCol? m).map (List.take k) := by
  unfold Frame.takeRows Frame.getCol?
  rw [find?_map_snd (List.take k)]
  rcases hf : f.cols.find? (fun p => p.1 == m) <;> simp [hf]

theorem hasCol_takeRows (f : Frame) (k : ℕ) (m : String) :
    (f.takeRows k).hasCol m = f.hasCol m := by
  unfold Frame.hasCol
  rw [getCol?_takeRows]
  rcases f.getCol? m <;> simp

theorem ColsLen.takeRows {f : Frame} {n : ℕ} (hf : ColsLen f n) (k : ℕ) :
    ColsLen (f.takeRows k) (min k n) := by
  intro p hp
  rcases List.mem_map.mp hp with ⟨q, hq, rfl⟩
  simp [hf q hq]

theorem lastCell_ok {f : Frame} {k : ℕ} {m : String} (hm : f.hasCol m = true)
    (hl : ColsLen f k) (hk : 1 ≤ k) : ∃ c, f.lastCell m = .ok c := by
  obtain ⟨s, hcol, hget⟩ := col_ok_of_hasCol hm
  have hlen : s.length = k := hl.getCol hget
  have hne : s ≠ [] := by
    intro h
    rw [h] at hlen
    simp at hlen
    omega
  rcases hg : s.getLast? with _ | c
  · exact absurd (List.getLast?_eq_none_iff.mp hg) hne
  · exact ⟨c, by simp [Frame.lastCell, hcol, hg, Bind.bind, Except.bind]⟩

theorem lastCell_err_of_not_hasCol {f : Frame} {m : String}
    (hm : f.hasCol m = false) : f.lastCell m = .error ("KeyError: " ++ m) := by
  unfold Frame.lastCell Frame.col
  unfold Frame.hasCol at hm
  rcases hg : f.getCol? m with _ | s
  · simp [hg, Bind.bind, Except.bind]
  · rw [hg] at hm; simp at hm

/-- With total oracle calls, a frame of at least 30 aligned rows carrying a
Close column drives enhanced_prediction through the full enhanced path,
which returns the 4-tuple. -/
theorem enhancedTry_t4 (env : TaEnv) (slice : Frame) (henv : TaEnvTotal env)
    (hclose : slice.hasCol "Close" = true) (hwf : ColsLen slice slice.nRows)
    (h30 : 30 ≤ slice.nRows) :
    ∃ p c r, enhancedTry env (some slice) = .ok (.t4 p c r) := by
  obtain ⟨out, hout, hn, hl, hcols⟩ := genCols_ok env slice henv hclose hwf
  have hgen : generate_features env slice = fillFrame out := by
    simp [generate_features, hout]
  have hfl : ColsLen (generate_features env slice) slice.nRows := by
    rw [hgen]; exact hl.fillFrame
  have hhc : ∀ m ∈ featureNames, (generate_features env slice).hasCol m = true := by
    intro m hm
    rw [hgen, hasCol_fillFrame]
    exact hcols m hm
  have h1 : 1 ≤ slice.nRows := by omega
  obtain ⟨c1, e1⟩ := lastCell_ok (hhc "rsi" (by simp [featureNames])) hfl h1
  obtain ⟨c2, e2⟩ := lastCell_ok (hhc "macd" (by simp [featureNames])) hfl h1
  obtain ⟨c3, e3⟩ := lastCell_ok (hhc "macd_signal" (by simp [featureNames])) hfl h1
  obtain ⟨c4, e4⟩ := lastCell_ok (hhc "macd_diff" (by simp [featureNames])) hfl h1
  obtain ⟨c5, e5⟩ := lastCell_ok (hhc "ema12" (by simp [featureNames])) hfl h1
  obtain ⟨c6, e6⟩ := lastCell_ok (hhc "ema26" (by simp [featureNames])) hfl h1
  obtain ⟨c7, e7⟩ := lastCell_ok (hhc "Close" (by simp [featureNames])) hfl h1
  obtain ⟨c8, e8⟩ := lastCell_ok (hhc "bb_low" (by simp [featureNames])) hfl h1
  obtain ⟨c9, e9⟩ := lastCell_ok (hhc "bb_high" (by simp [featureNames])) hfl h1
  obtain ⟨c10, e10⟩ := lastCell_ok (hhc "stoch_k" (by simp [featureNames])) hfl h1
  obtain ⟨c11, e11⟩ := lastCell_ok (hhc "stoch_d" (by simp [featureNames])) hfl h1
  obtain ⟨c12, e12⟩ := lastCell_ok (hhc "adx" (by simp [featureNames])) hfl h1
  obtain ⟨c13, e13⟩ := lastCell_ok (hhc "volume_spike" (by simp [featureNames])) hfl h1
  obtain ⟨c14, e14⟩ := lastCell_ok (hhc "divergence" (by simp [featureNames])) hfl h1
  unfold enhancedTry
  dsimp only
  rw [if_neg (by omega)]
  simp only [e1, e2, e3, e4, e5, e6, e7, e8, e9, e10, e11, e12, e13, e14,
    Bind.bind, Except.bind, Pure.pure, Except.pure]
  exact ⟨_, _, _, rfl⟩

/-- When the very first ta call raises, the generate_features try block
raises, and the except branch returns the input unchanged. -/
theorem generate_features_id_of_rsi_err (env : TaEnv) (df : Frame)
    (hfail : ∀ s, ∃ e, env.taRsi s = .error e)
    (hclose : df.hasCol "Close" = true) (hwf : ColsLen df df.nRows) :
    generate_features env df = df := by
  obtain ⟨data, hdata, _, _, _, hH, hL, hC, hV⟩ := synthAll_ok df hclose hwf
  obtain ⟨close, hcolC, _⟩ := col_ok_of_hasCol hC
  obtain ⟨high, hcolH, _⟩ := col_ok_of_hasCol hH
  obtain ⟨low, hcolL, _⟩ := col_ok_of_hasCol hL
  obtain ⟨vol, hcolV, _⟩ := col_ok_of_hasCol hV
  obtain ⟨e, he⟩ := hfail close
  have : genCols env df = .error e := by
    unfold genCols
    simp [hdata, hcolC, hcolH, hcolL, hcolV, he, Bind.bind, Except.bind]
  simp [generate_features, this]

/-- With failing ta calls and no rsi column in the input slice, the
enhanced path falls back internally: generate_features returns the slice
unchanged, the rsi access raises KeyError inside the enhanced try block,
and rule_based_prediction produces the 3-tuple. -/
theorem enhanced_prediction_t3_of_rsi_err (env : TaEnv) (slice : Frame)
    (hfail : ∀ s, ∃ e, env.taRsi s = .error e)
    (hclose : slice.hasCol "Close" = true) (hwf : ColsLen slice slice.nRows)
    (h30 : 30 ≤ slice.nRows) (hnorsi : slice.hasCol "rsi" = false) :
    ∃ p c r, enhanced_prediction env (some slice) = .t3 p c r := by
  have hgen : generate_features env slice = slice :=
    generate_features_id_of_rsi_err env slice hfail hclose hwf
  have herr : enhancedTry env (some slice) = .error ("KeyError: " ++ "rsi") := by
    unfold enhancedTry
    dsimp only
    rw [if_neg (by omega)]
    rw [hgen, lastCell_err_of_not_hasCol hnorsi]
    simp [Bind.bind, Except.bind]
  obtain ⟨p, c, r, h3⟩ := rule_based_prediction_t3 env (some slice)
  exact ⟨p, c, r, by simp [enhanced_prediction, herr, h3]⟩

theorem foldlM_append_one {α : Type} (l : List ℕ)
    (f : List α → ℕ → Except String (List α))
    (h : ∀ i ∈ l, ∀ acc, ∃ t, f acc i = .ok (acc ++ [t])) :
    ∀ init, ∃ ts, l.foldlM f init = .ok ts ∧ ts.length = init.length + l.length := by
  induction l with
  | nil => exact fun init => ⟨init, by simp [List.foldlM, Pure.pure, Except.pure], by simp⟩
  | cons a l ih =>
    intro init
    obtain ⟨t, ht⟩ := h a (List.mem_cons_self a l) init
    obtain ⟨ts, hts, hlen⟩ :=
      ih (fun i hi acc => h i (List.mem_cons_of_mem a hi) acc) (init ++ [t])
    refine ⟨ts, ?_, by simp at hlen; simp [hlen]; omega⟩
    rw [List.foldlM_cons, ht]
    simpa [Bind.bind, Except.bind] using hts

/-- A frame with a Close column has at least one column. -/
theorem cols_ne_nil_of_hasCol {f : Frame} {m : String} (h : f.hasCol m = true) :
    f.cols.isEmpty = false := by
  rcases hc : f.cols with _ | ⟨a, l⟩
  · rw [Frame.hasCol, Frame.getCol?, hc] at h
    simp at h
  · simp

/-- C2: with well-behaved indicator libraries and a clean history of at
least 31 + interval bars, the very first walk step's enhanced_prediction
succeeds and returns its 4-tuple; the three-variable unpacking in the loop
raises ValueError, no per-step handler exists, and the whole backtest
returns the error-500 dictionary instead of a report. -/
theorem C2_step_success_aborts_walk (env : TaEnv) (symbol : String) (data : Frame)
    (period : String) (itv : ℕ) (hsym : (symbol == "") = false)
    (henv : TaEnvTotal env) (hclose : data.hasCol "Close" = true)
    (hwf : ColsLen data data.nRows) (hlen : 31 + itv ≤ data.nRows) :
    run_backtest env symbol data period itv =
      .err ("Backtest failed: " ++ "ValueError: too many values to unpack (expected 3)")
        500 := by
  obtain ⟨out, hout, hn, hl, hcols⟩ := genCols_ok env data henv hclose hwf
  have hgen : generate_features env data = fillFrame out := by
    simp [generate_features, hout]
  have hEn : (generate_features env data).nRows = data.nRows := by
    rw [hgen]
    simp [hn]
  have hEl : ColsLen (generate_features env data) data.nRows := by
    rw [hgen]; exact hl.fillFrame
  have hEcols : ∀ m ∈ featureNames, (generate_features env data).hasCol m = true := by
    intro m hm
    rw [hgen, hasCol_fillFrame]
    exact hcols m hm
  have hEclose : (generate_features env data).hasCol "Close" = true :=
    hEcols "Close" (by simp [featureNames])
  -- slice at the first step i = 30
  have hsn : ((generate_features env data).takeRows 31).nRows = 31 := by
    rw [nRows_takeRows, hEn]
    omega
  have hswf : ColsLen ((generate_features env data).takeRows 31)
      ((generate_features env data).takeRows 31).nRows := by
    rw [nRows_takeRows, hEn, Nat.min_eq_left (by omega)]
    have := hEl.takeRows 31
    rwa [Nat.min_eq_left (by omega)] at this
  have hsclose : ((generate_features env data).takeRows 31).hasCol "Close" = true := by
    rw [hasCol_takeRows]
    exact hEclose
  obtain ⟨p, c, r, hpred⟩ := enhancedTry_t4 env _ henv hsclose hswf (by omega)
  have hpred' : enhanced_prediction env (some ((generate_features env data).takeRows 31)) =
      .t4 p c r := by
    simp [enhanced_prediction, hpred]
  obtain ⟨closeF, hcF, _⟩ := col_ok_of_hasCol hEclose
  have hloop : btLoop env (generate_features env data) itv =
      .error "ValueError: too many values to unpack (expected 3)" := by
    unfold btLoop
    have hcnt : (generate_features env data).nRows - itv - 30 =
        (data.nRows - itv - 31) + 1 := by
      rw [hEn]; omega
    rw [hcnt, List.range'_succ, List.foldlM_cons]
    have hstep30 : btStep env (generate_features env data) itv [] 30 =
        .error "ValueError: too many values to unpack (expected 3)" := by
      unfold btStep
      simp only [hcF, Bind.bind, Except.bind, hpred']
    rw [hstep30]
    rfl
  unfold run_backtest
  rw [if_neg (by simp [hsym]),
    if_neg (by
      push_neg
      refine ⟨by omega, ?_, by omega⟩
      simp [cols_ne_nil_of_hasCol hclose])]
  simp only [hloop]

/-- A 38-row close-only frame: exactly one walk iteration for interval 7. -/
def data38 : Frame := ⟨38, [("Close", List.replicate 38 (some 2))]⟩

/-- Witness: the C2 theorem at a concrete 38-bar history with the echo
oracles: the backtest returns the ValueError-driven 500 error instead of a
report. -/
theorem C2_step_success_aborts_walk_witness :
    run_backtest envOkId "BTC" data38 "1y" 7 =
      .err ("Backtest failed: " ++ "ValueError: too many values to unpack (expected 3)")
        500 :=
  C2_step_success_aborts_walk envOkId "BTC" data38 "1y" 7 (by decide) envOkId_total
    (by decide) (by intro p hp; rcases List.mem_singleton.mp hp with rfl; rfl) (by decide)

/-- C1: when every per-step prediction goes through the rule-based
fallback (here because the external rsi indicator call raises, so the
enhanced path cannot run), the walk completes and produces one trade per
bar: the count is len - 30 - interval, not the claimed
floor((len - 30 - interval)/3), because the i += 3 in the loop body does
not advance a Python for iterator. -/
theorem C1_walk_steps_by_one (env : TaEnv) (symbol : String) (data : Frame)
    (period : String) (itv : ℕ) (hsym : (symbol == "") = false)
    (hfail : ∀ s, ∃ e, env.taRsi s = .error e)
    (hclose : data.hasCol "Close" = true) (hnorsi : data.hasCol "rsi" = false)
    (hwf : ColsLen data data.nRows) (hlen : 31 + itv ≤ data.nRows) :
    ∃ r, run_backtest env symbol data period itv = .ok r ∧
      r.num_trades = data.nRows - 30 - itv := by
  have hgen : generate_features env data = data :=
    generate_features_id_of_rsi_err env data hfail hclose hwf
  obtain ⟨closeF, hcF, _⟩ := col_ok_of_hasCol hclose
  have hstep : ∀ i ∈ List.range' 30 (data.nRows - itv - 30), ∀ acc,
      ∃ t, btStep env data itv acc i = .ok (acc ++ [t]) := by
    intro i hi acc
    rw [List.mem_range'_1] at hi
    have hi1 : 31 ≤ i + 1 := by omega
    have hi2 : i + 1 ≤ data.nRows := by omega
    have hsn : (data.takeRows (i + 1)).nRows = i + 1 := by
      rw [nRows_takeRows]
      omega
    have hswf : ColsLen (data.takeRows (i + 1)) (data.takeRows (i + 1)).nRows := by
      rw [hsn]
      have := hwf.takeRows (i + 1)
      rwa [Nat.min_eq_left hi2] at this
    obtain ⟨p, c, r, hpred⟩ := enhanced_prediction_t3_of_rsi_err env
      (data.takeRows (i + 1)) hfail
      (by rw [hasCol_takeRows]; exact hclose) hswf (by omega)
      (by rw [hasCol_takeRows]; exact hnorsi)
    unfold btStep
    simp only [hcF, Bind.bind, Except.bind, hpred, Pure.pure, Except.pure]
    exact ⟨_, rfl⟩
  obtain ⟨ts, hts, hlen2⟩ :=
    foldlM_append_one (List.range' 30 (data.nRows - itv - 30))
      (btStep env data itv) hstep []
  have hloop : btLoop env data itv = .ok ts := by
    unfold btLoop
    exact hts
  have htslen : ts.length = data.nRows - itv - 30 := by
    simpa using hlen2
  unfold run_backtest
  rw [if_neg (by simp [hsym]),
    if_neg (by
      push_neg
      refine ⟨by omega, ?_, by omega⟩
      simp [cols_ne_nil_of_hasCol hclose])]
  simp only [hgen, hloop]
  rcases ts with _ | ⟨t0, rest⟩
  · rw [List.length_nil] at htslen
    omega
  · exact ⟨_, rfl, by simp only [List.length_cons] at htslen ⊢; omega⟩

/-- An oracle environment in which every external indicator call raises. -/
def envFail : TaEnv :=
  { taRsi := fun _ => .error "ta unavailable"
    taMacd := fun _ => .error "ta unavailable"
    taEma := fun _ _ => .error "ta unavailable"
    taBollinger := fun _ => .error "ta unavailable"
    taStoch := fun _ _ _ => .error "ta unavailable"
    taAdx := fun _ _ _ => .error "ta unavailable"
    taObv := fun _ _ => .error "ta unavailable"
    taStochRsi := fun _ => .error "ta unavailable"
    rollingStd := fun _ _ => .error "ta unavailable" }

/-- A 40-row close-only frame. -/
def data40 : Frame := ⟨40, [("Close", List.replicate 40 (some 2))]⟩

/-- Witness: the C1 theorem at a concrete 40-bar history with interval 7:
the fallback walk produces 3 trades (one per bar), while the claimed
formula floor((40 - 30 - 7)/3) gives 1. -/
theorem C1_walk_steps_by_one_witness :
    (∃ r, run_backtest envFail "BTC" data40 "1y" 7 = .ok r ∧
      r.num_trades = 40 - 30 - 7) ∧ 40 - 30 - 7 = 3 ∧ (40 - 30 - 7) / 3 = 1 :=
  ⟨C1_walk_steps_by_one envFail "BTC" data40 "1y" 7 (by decide)
    (fun s => ⟨"ta unavailable", rfl⟩) (by decide) (by decide)
    (by intro p hp; rcases List.mem_singleton.mp hp with rfl; rfl) (by decide),
   by decide, by decide⟩

end DelphOs
